import Mathlib

/-!
# Forkify: the shared `View` class

A shallow embedding of `src/js/views/View.js` (the parent class of every view of the
application) together with the part of the browser's DOM that the class drives:
`innerHTML = ''`, `insertAdjacentHTML('afterbegin', _)`, `createContextualFragment`,
`querySelectorAll('*')`, `isEqualNode`, `firstChild`, `nodeValue`, `textContent`,
`attributes` and `setAttribute`.

DOM nodes are objects with identity: `View.update` keeps references to the elements that
were mounted when it started and goes on reading and writing them after they were removed
from the document.  Nodes therefore carry an identifier, and the state keeps the nodes that
left the document next to the ones that are mounted.

The HTML parser and the URL of the icon sprite belong to the page, not to the class: they
are the fields of `Host`, and every general statement holds for every host.  The concrete
statements use the small parser and the child classes of the namespace `Example`.

The file also embeds the state and the functions of `src/js/model.js`, the markup producer
of `src/js/views/PaginationView.js` and the function `AJAX` of `src/js/helpers.js`.

Contents: JavaScript values; parsed markup and DOM nodes; the methods of `View`; the
examples; the model; the pagination view; the request helper; the lemmas on nodes and on
the state behind the references; the loop of `update`; the statements about `render` and
`update`, about the status methods, about the model, about the pagination view and about
`AJAX`.
-/

namespace Forkify

/-! ## JavaScript values -/

/-- Values a controller can hand to a view as `data`. -/
inductive JsValue where
  | undefined
  | null
  | bool (b : Bool)
  | number (n : Int)
  | nan
  | string (s : String)
  | array (items : List JsValue)
  | object (fields : List (String × JsValue))

namespace JsValue

/-- ToBoolean of the language: what `!data` negates. -/
def toBoolean : JsValue → Bool
  | undefined => false
  | null => false
  | bool b => b
  | number n => n != 0
  | nan => false
  | string s => s != ""
  | array _ => true
  | object _ => true

/-- The test `Array.isArray(data) && data.length === 0`. -/
def isEmptyArray : JsValue → Bool
  | array items => items.length == 0
  | _ => false

/-- The guard `!data || (Array.isArray(data) && data.length === 0)` of `render` and `update`. -/
def isMissing (data : JsValue) : Bool :=
  !data.toBoolean || data.isEmptyArray

/-- Property read `data[key]` on an object, for the markup producers of the examples. -/
def getField (key : String) : JsValue → JsValue
  | object fields => ((fields.find? (fun kv => kv.1 == key)).map (fun kv => kv.2)).getD undefined
  | _ => undefined

/-- Text a template literal interpolates for a string-valued expression. -/
def asText : JsValue → String
  | string s => s
  | _ => "undefined"

end JsValue

/-- How a method call ends: it returns a value or an exception leaves it. -/
inductive Completion (α : Type) where
  | normal (value : α)
  | throw (error : String)
deriving DecidableEq

/-! ## Parsed markup -/

/-- What the HTML parser builds from a markup string, before the nodes exist as objects.
`tag` stands for the element's namespace, prefix and local name together. -/
inductive HtmlNode where
  | element (tag : String) (attrs : List (String × String)) (children : List HtmlNode)
  | text (data : String)
  | comment (data : String)

mutual
/-- Decidable equality of parsed markup. -/
def HtmlNode.decEq : (a b : HtmlNode) → Decidable (a = b)
  | .element t a cs, .element t2 a2 cs2 =>
    if h1 : t = t2 then
      if h2 : a = a2 then
        match HtmlNode.decEqList cs cs2 with
        | isTrue h3 => isTrue (by rw [h1, h2, h3])
        | isFalse h3 => isFalse (fun h => h3 (by cases h; rfl))
      else isFalse (fun h => h2 (by cases h; rfl))
    else isFalse (fun h => h1 (by cases h; rfl))
  | .text d, .text d2 =>
    if h : d = d2 then isTrue (by rw [h]) else isFalse (fun e => h (by cases e; rfl))
  | .comment d, .comment d2 =>
    if h : d = d2 then isTrue (by rw [h]) else isFalse (fun e => h (by cases e; rfl))
  | .element _ _ _, .text _ => isFalse (fun h => by cases h)
  | .element _ _ _, .comment _ => isFalse (fun h => by cases h)
  | .text _, .element _ _ _ => isFalse (fun h => by cases h)
  | .text _, .comment _ => isFalse (fun h => by cases h)
  | .comment _, .element _ _ _ => isFalse (fun h => by cases h)
  | .comment _, .text _ => isFalse (fun h => by cases h)
/-- Decidable equality of lists of parsed markup. -/
def HtmlNode.decEqList : (a b : List HtmlNode) → Decidable (a = b)
  | [], [] => isTrue rfl
  | [], _ :: _ => isFalse (fun h => by cases h)
  | _ :: _, [] => isFalse (fun h => by cases h)
  | x :: xs, y :: ys =>
    match HtmlNode.decEq x y with
    | isTrue h1 =>
      match HtmlNode.decEqList xs ys with
      | isTrue h2 => isTrue (by rw [h1, h2])
      | isFalse h2 => isFalse (fun h => h2 (by cases h; rfl))
    | isFalse h1 => isFalse (fun h => h1 (by cases h; rfl))
end

instance : DecidableEq HtmlNode := HtmlNode.decEq

mutual
/-- Number of nodes of a parsed tree. -/
def HtmlNode.size : HtmlNode → Nat
  | .element _ _ cs => 1 + HtmlNode.sizeList cs
  | .text _ => 1
  | .comment _ => 1
/-- Number of nodes of a parsed forest. -/
def HtmlNode.sizeList : List HtmlNode → Nat
  | [] => 0
  | n :: ns => n.size + HtmlNode.sizeList ns
end

/-! ## DOM nodes -/

/-- A node of the document: an object with an identity `id`. -/
inductive Node where
  | element (id : Nat) (tag : String) (attrs : List (String × String)) (children : List Node)
  | text (id : Nat) (data : String)
  | comment (id : Nat) (data : String)

namespace Node

/-- Identity of the object. -/
def id : Node → Nat
  | element i _ _ _ => i
  | text i _ => i
  | comment i _ => i

/-- The test that a node is an element. -/
def isElement : Node → Bool
  | element _ _ _ _ => true
  | _ => false

/-- The list `node.childNodes`. -/
def childNodes : Node → List Node
  | element _ _ _ cs => cs
  | _ => []

/-- The list `el.attributes`, as name and value pairs in order. -/
def attributes : Node → List (String × String)
  | element _ _ a _ => a
  | _ => []

mutual
/-- A node and its descendants in tree order. -/
def nodes : Node → List Node
  | element i t a cs => element i t a cs :: nodesList cs
  | text i d => [text i d]
  | comment i d => [comment i d]
/-- The nodes of a forest in tree order. -/
def nodesList : List Node → List Node
  | [] => []
  | n :: ns => n.nodes ++ nodesList ns
end

mutual
/-- Identities of a node and its descendants in tree order. -/
def ids : Node → List Nat
  | element i _ _ cs => i :: idsList cs
  | text i _ => [i]
  | comment i _ => [i]
/-- Identities of the nodes of a forest. -/
def idsList : List Node → List Nat
  | [] => []
  | n :: ns => n.ids ++ idsList ns
end

mutual
/-- The markup a node stands for: the node without identities. -/
def strip : Node → HtmlNode
  | element _ t a cs => .element t a (stripList cs)
  | text _ d => .text d
  | comment _ d => .comment d
/-- The markup a forest stands for. -/
def stripList : List Node → List HtmlNode
  | [] => []
  | n :: ns => n.strip :: stripList ns
end

/-- Equality of attribute lists as `isEqualNode` defines it: the same number of attributes,
and every attribute of the first list has an equal one in the second. -/
def attrsEqual (a b : List (String × String)) : Bool :=
  a.length == b.length && a.all (fun x => b.contains x)

mutual
/-- The method `a.isEqualNode(b)`: same kind of node, same tag and attributes or same data,
and children equal pairwise. Identities play no part. -/
def isEqualNode : Node → Node → Bool
  | element _ t a cs, element _ t2 a2 cs2 => t == t2 && attrsEqual a a2 && isEqualNodeList cs cs2
  | text _ d, text _ d2 => d == d2
  | comment _ d, comment _ d2 => d == d2
  | _, _ => false
/-- Children equal pairwise and in equal number. -/
def isEqualNodeList : List Node → List Node → Bool
  | [], [] => true
  | n :: ns, m :: ms => isEqualNode n m && isEqualNodeList ns ms
  | _, _ => false
end

mutual
/-- The text below a node: the data of a text node, the concatenated data of the text
nodes below an element in tree order, and nothing for a comment. -/
def descendantText : Node → String
  | element _ _ _ cs => descendantTextList cs
  | text _ d => d
  | comment _ _ => ""
/-- Concatenated data of the text nodes of a forest. -/
def descendantTextList : List Node → String
  | [] => ""
  | n :: ns => descendantText n ++ descendantTextList ns
end

/-- The getter `node.textContent`: the text below an element; the data of a text or comment
node itself. -/
def textContent : Node → String
  | element _ _ _ cs => descendantTextList cs
  | text _ d => d
  | comment _ d => d

mutual
/-- Replace the node whose identity is `ref` by `new`. -/
def replaceAt (ref : Nat) (new : Node) : Node → Node
  | element i t a cs => if i = ref then new else element i t a (replaceAtList ref new cs)
  | text i d => if i = ref then new else text i d
  | comment i d => if i = ref then new else comment i d
/-- Replace the node whose identity is `ref` by `new` everywhere in a forest. -/
def replaceAtList (ref : Nat) (new : Node) : List Node → List Node
  | [] => []
  | n :: ns => replaceAt ref new n :: replaceAtList ref new ns
end

end Node

mutual
/-- Create the objects of a parsed tree, numbering them from `k` in tree order. -/
def HtmlNode.alloc (k : Nat) : HtmlNode → Node
  | .element t a cs => .element k t a (HtmlNode.allocList (k + 1) cs)
  | .text d => .text k d
  | .comment d => .comment k d
/-- Create the objects of a parsed forest, numbering them from `k` in tree order. -/
def HtmlNode.allocList (k : Nat) : List HtmlNode → List Node
  | [] => []
  | n :: ns => n.alloc k :: HtmlNode.allocList (k + n.size) ns
end

/-- The call `root.querySelectorAll('*')`: every element below the root, in tree order. -/
def querySelectorAll (childNodes : List Node) : List Node :=
  (Node.nodesList childNodes).filter Node.isElement

/-- WhiteSpace and LineTerminator code points, which `String.prototype.trim` removes. -/
def isJsWhiteSpace (c : Char) : Bool :=
  c.toNat == 0x09 || c.toNat == 0x0A || c.toNat == 0x0B || c.toNat == 0x0C ||
  c.toNat == 0x0D || c.toNat == 0x20 || c.toNat == 0xA0 || c.toNat == 0x1680 ||
  (0x2000 ≤ c.toNat && c.toNat ≤ 0x200A) || c.toNat == 0x2028 || c.toNat == 0x2029 ||
  c.toNat == 0x202F || c.toNat == 0x205F || c.toNat == 0x3000 || c.toNat == 0xFEFF

/-- The method `s.trim()`. -/
def jsTrim (s : String) : String :=
  String.mk ((s.data.dropWhile isJsWhiteSpace).reverse.dropWhile isJsWhiteSpace).reverse

/-- The expression `currEl.firstChild?.nodeValue.trim()`: `undefined` (here `none`) when
there is no first child, the trimmed data of a text or comment first child, and a TypeError
when the first child is an element, whose `nodeValue` is `null`. -/
def firstChildNodeValueTrim (el : Node) : Completion (Option String) :=
  match el.childNodes with
  | [] => .normal none
  | .text _ d :: _ => .normal (some (jsTrim d))
  | .comment _ d :: _ => .normal (some (jsTrim d))
  | .element _ _ _ _ :: _ => .throw "TypeError: Cannot read properties of null (reading 'trim')"

/-- The attribute list after `setAttribute(name, value)`: the first attribute of that name
takes the value, or a new attribute is appended. -/
def setAttr (name value : String) : List (String × String) → List (String × String)
  | [] => [(name, value)]
  | (n, v) :: rest => if n = name then (n, value) :: rest else (n, v) :: setAttr name value rest

/-! ## The view -/

/-- What the page and the bundler supply: the URL of the icon sprite (the import `icons`)
and the HTML fragment parser behind `insertAdjacentHTML` and `createContextualFragment`. -/
structure Host where
  icons : String
  parseHTML : String → List HtmlNode

/-- A view object. `_generateMarkup`, `_errMessage` and `_message` come from the child class
(`none` for a message the class does not declare, `none` from the producer when it throws);
`_data` is the stored entity; `_parentElement` is the child list of the mount element;
`detached` holds the nodes that left the document and `nextId` is the next free identity. -/
structure View where
  _generateMarkup : JsValue → Option String
  _errMessage : Option String
  _message : Option String
  _data : JsValue
  _parentElement : List Node
  detached : List Node
  nextId : Nat

/-- Text a template literal interpolates for a message that may be `undefined`. -/
def templateText : Option String → String
  | some s => s
  | none => "undefined"

/-- The template literal of `renderSpinner`. -/
def spinnerMarkup (icons : String) : String :=
  "<div class=\"spinner\">\n    <svg>\n      <use href=\"" ++ icons ++
  "#icon-loader\"></use>\n    </svg>\n  </div>"

/-- The template literal of `renderError`. -/
def errorMarkup (icons : String) (err : String) : String :=
  "<div class=\"error\">\n    <div>\n      <svg>\n        <use href=\"" ++ icons ++
  "#icon-alert-triangle\"></use>\n      </svg>\n    </div>\n    <p>" ++ err ++ "</p>\n  </div>"

/-- The template literal of `renderMessage`. -/
def messageMarkup (icons : String) (err : String) : String :=
  "<div class=\"message\">\n    <div>\n      <svg>\n        <use href=\"" ++ icons ++
  "#icon-smile\"></use>\n      </svg>\n    </div>\n    <p>" ++ err ++ "</p>\n  </div>"

namespace View

/-- Follow a reference: the node whose identity is `ref`, mounted or not. -/
def getNode (v : View) (ref : Nat) : Option Node :=
  (Node.nodesList (v._parentElement ++ v.detached)).find? (fun n => n.id == ref)

/-- Put `new` in the place of the node `ref`; `removed` are the children that left it and
`created` is the number of node objects made on the way. -/
def replaceNode (v : View) (ref : Nat) (new : Node) (removed : List Node) (created : Nat) :
    View :=
  { v with
    _parentElement := Node.replaceAtList ref new v._parentElement
    detached := Node.replaceAtList ref new v.detached ++ removed
    nextId := v.nextId + created }

/-- The setter `el.textContent = s`: all children leave the element, and a new text node
holding `s` becomes its only child unless `s` is empty. -/
def setTextContent (v : View) (ref : Nat) (s : String) : View :=
  match v.getNode ref with
  | some (.element i t a cs) =>
    if s = "" then v.replaceNode ref (.element i t a []) cs 0
    else v.replaceNode ref (.element i t a [.text v.nextId s]) cs 1
  | _ => v

/-- The call `el.setAttribute(name, value)`. -/
def setAttribute (v : View) (ref : Nat) (name value : String) : View :=
  match v.getNode ref with
  | some (.element i t a cs) => v.replaceNode ref (.element i t (setAttr name value a) cs) [] 0
  | _ => v

/-- The method `_clear`: `this._parentElement.innerHTML = ''`. -/
def _clear (v : View) : View :=
  { v with _parentElement := [], detached := v.detached ++ v._parentElement }

/-- The call `this._parentElement.insertAdjacentHTML('afterbegin', markup)`. -/
def insertAdjacentHTML (h : Host) (v : View) (markup : String) : View :=
  { v with
    _parentElement := HtmlNode.allocList v.nextId (h.parseHTML markup) ++ v._parentElement
    nextId := v.nextId + HtmlNode.sizeList (h.parseHTML markup) }

/-- The method `renderSpinner`. -/
def renderSpinner (h : Host) (v : View) : View :=
  (v._clear).insertAdjacentHTML h (spinnerMarkup h.icons)

/-- The method `renderError(err = this._errMessage)`; `none` is a call without argument. -/
def renderError (h : Host) (v : View) (err : Option String) : View :=
  let err := match err with
    | some e => some e
    | none => v._errMessage
  (v._clear).insertAdjacentHTML h (errorMarkup h.icons (templateText err))

/-- The method `renderMessage(err = this._message)`; `none` is a call without argument. -/
def renderMessage (h : Host) (v : View) (err : Option String) : View :=
  let err := match err with
    | some e => some e
    | none => v._message
  (v._clear).insertAdjacentHTML h (messageMarkup h.icons (templateText err))

/-- The method `render(data, render = true)`. The result pairs the view afterwards with the
returned value: `none` for `undefined`, `some markup` for the markup string. -/
def render (h : Host) (v : View) (data : JsValue) (render : Bool) :
    View × Completion (Option String) :=
  if data.isMissing then
    (v.renderError h none, .normal none)
  else
    let v := { v with _data := data }
    match v._generateMarkup v._data with
    | none => (v, .throw "_generateMarkup threw")
    | some markup =>
      if !render then (v, .normal (some markup))
      else ((v._clear).insertAdjacentHTML h markup, .normal none)

/-- The test `currEl.isEqualNode(newEl)` through the reference `currEl`. -/
def isEqualNodeAt (v : View) (currEl : Nat) (newEl : Node) : Bool :=
  match v.getNode currEl with
  | some cur => Node.isEqualNode cur newEl
  | none => false

/-- The callback of `newElements.forEach((newEl, i) => ...)` in `update`. `currElements` are
the references taken before the loop, and `currElements[i]` is `undefined` past their end.
A reference that resolves to no node is a case of the model only: in a well-formed state
every reference the loop still holds resolves (`forEachNewElement_completes`). -/
def updateElement (h : Host) (newMarkup : String) (currElements : List Nat) (v : View)
    (newEl : Node) (i : Nat) : View × Completion Unit :=
  match currElements[i]? with
  | none => (v, .throw "TypeError: Cannot read properties of undefined (reading 'isEqualNode')")
  | some currEl =>
    match v.getNode currEl with
    | none => (v, .throw "reference to a node that does not exist")
    | some cur =>
      if !Node.isEqualNode cur newEl then
        match firstChildNodeValueTrim cur with
        | .throw e => (v, .throw e)
        | .normal trimmed =>
          if trimmed != some "" then
            let v1 := v.setTextContent currEl (Node.textContent newEl)
            let v2 :=
              if !v1.isEqualNodeAt currEl newEl then
                (Node.attributes newEl).foldl (fun w attr => w.setAttribute currEl attr.1 attr.2) v1
              else v1
            let v3 := v2._clear
            (v3.insertAdjacentHTML h newMarkup, .normal ())
          else (v, .normal ())
      else (v, .normal ())

/-- The loop `newElements.forEach(...)`: the callback runs on each new element in turn, and
an exception ends the loop. -/
def forEachNewElement (h : Host) (newMarkup : String) (currElements : List Nat) :
    List Node → Nat → View → View × Completion Unit
  | [], _, v => (v, .normal ())
  | newEl :: rest, i, v =>
    match updateElement h newMarkup currElements v newEl i with
    | (v1, .normal _) => forEachNewElement h newMarkup currElements rest (i + 1) v1
    | (v1, .throw e) => (v1, .throw e)

/-- The fragment `document.createRange().createContextualFragment(newMarkup)`. -/
def createContextualFragment (h : Host) (v : View) (newMarkup : String) : List Node :=
  HtmlNode.allocList v.nextId (h.parseHTML newMarkup)

/-- The method `update(data)`. -/
def update (h : Host) (v : View) (data : JsValue) : View × Completion Unit :=
  if data.isMissing then
    (v, .normal ())
  else
    let v := { v with _data := data }
    match v._generateMarkup v._data with
    | none => (v, .throw "_generateMarkup threw")
    | some newMarkup =>
      let newDOM := v.createContextualFragment h newMarkup
      let v := { v with nextId := v.nextId + HtmlNode.sizeList (h.parseHTML newMarkup) }
      let newElements := querySelectorAll newDOM
      let currElements := (querySelectorAll v._parentElement).map Node.id
      forEachNewElement h newMarkup currElements newElements 0 v

/-- The array `currElements` of `update`: the elements mounted when `update` starts. -/
def currElements (v : View) : List Node :=
  querySelectorAll v._parentElement

/-- The array `newElements` of `update`: the elements of the fragment built from the new
markup. -/
def newElements (h : Host) (v : View) (newMarkup : String) : List Node :=
  querySelectorAll (v.createContextualFragment h newMarkup)

/-- Every node object of the state, mounted or not, has its own identity, and all of them
were made before `nextId`. -/
def WellFormed (v : View) : Prop :=
  (Node.idsList (v._parentElement ++ v.detached)).Nodup ∧
  ∀ i ∈ Node.idsList (v._parentElement ++ v.detached), i < v.nextId

instance (v : View) : Decidable v.WellFormed := by
  unfold WellFormed
  exact inferInstance

/-- What one round of the loop of `update` does with a mounted element and the new element
of the same index. -/
inductive Round where
  | skip
  | patch
  | throw
deriving DecidableEq

/-- The round a pair gets, read off the two conditions of `update`: nothing happens when
`currEl.isEqualNode(newEl)`; otherwise `currEl.firstChild?.nodeValue.trim()` is evaluated,
which throws, or is the empty string and nothing happens, or is anything else and the
branch that patches and re-inserts runs. -/
def roundOf (currEl newEl : Node) : Round :=
  if Node.isEqualNode currEl newEl then .skip
  else
    match firstChildNodeValueTrim currEl with
    | .throw _ => .throw
    | .normal trimmed => if trimmed != some "" then .patch else .skip

/-- The state is well formed and still holds every node of `refs` unchanged: what the loop
of `update` needs of the elements it has yet to visit. -/
def Holds (v : View) (refs : List Node) : Prop :=
  v.WellFormed ∧ ∀ n ∈ refs, n ∈ Node.nodesList (v._parentElement ++ v.detached)

end View

/-! ## A host and child classes for the examples -/

namespace Example

/-- Tokens of the example markup. -/
inductive Token where
  | startTag (tag : String) (attrs : List (String × String))
  | endTag (tag : String)
  | chars (data : String)

/-- States of the tokenizer of the example markup. -/
inductive LexState where
  | data (acc : List Char)
  | tagOpen
  | endTagName (acc : List Char)
  | tagName (acc : List Char)
  | beforeAttrName (tag : String) (attrs : List (String × String))
  | attrName (tag : String) (attrs : List (String × String)) (acc : List Char)
  | beforeAttrValue (tag : String) (attrs : List (String × String)) (name : String)
  | attrValue (tag : String) (attrs : List (String × String)) (name : String) (acc : List Char)

/-- White space between the parts of a tag. -/
def isSpace (c : Char) : Bool := c == ' ' || c == '\n' || c == '\t'

/-- Tokenizer for the markup of the examples: tags, attributes with double-quoted or no
value, and text. -/
def tokenize : LexState → List Char → List Token
  | .data acc, [] => if acc.isEmpty then [] else [.chars (String.mk acc.reverse)]
  | _, [] => []
  | .data acc, c :: cs =>
    if c == '<' then
      (if acc.isEmpty then [] else [Token.chars (String.mk acc.reverse)]) ++ tokenize .tagOpen cs
    else tokenize (.data (c :: acc)) cs
  | .tagOpen, c :: cs =>
    if c == '/' then tokenize (.endTagName []) cs else tokenize (.tagName [c]) cs
  | .endTagName acc, c :: cs =>
    if c == '>' then .endTag (String.mk acc.reverse) :: tokenize (.data []) cs
    else tokenize (.endTagName (c :: acc)) cs
  | .tagName acc, c :: cs =>
    if c == '>' then .startTag (String.mk acc.reverse) [] :: tokenize (.data []) cs
    else if isSpace c || c == '/' then tokenize (.beforeAttrName (String.mk acc.reverse) []) cs
    else tokenize (.tagName (c :: acc)) cs
  | .beforeAttrName tag attrs, c :: cs =>
    if c == '>' then .startTag tag attrs :: tokenize (.data []) cs
    else if isSpace c || c == '/' then tokenize (.beforeAttrName tag attrs) cs
    else tokenize (.attrName tag attrs [c]) cs
  | .attrName tag attrs acc, c :: cs =>
    if c == '=' then tokenize (.beforeAttrValue tag attrs (String.mk acc.reverse)) cs
    else if c == '>' then
      .startTag tag (attrs ++ [(String.mk acc.reverse, "")]) :: tokenize (.data []) cs
    else if isSpace c || c == '/' then
      tokenize (.beforeAttrName tag (attrs ++ [(String.mk acc.reverse, "")])) cs
    else tokenize (.attrName tag attrs (c :: acc)) cs
  | .beforeAttrValue tag attrs name, c :: cs =>
    if c == '"' then tokenize (.attrValue tag attrs name []) cs
    else tokenize (.beforeAttrValue tag attrs name) cs
  | .attrValue tag attrs name acc, c :: cs =>
    if c == '"' then tokenize (.beforeAttrName tag (attrs ++ [(name, String.mk acc.reverse)])) cs
    else tokenize (.attrValue tag attrs name (c :: acc)) cs

/-- Elements that never have children. -/
def isVoid (tag : String) : Bool := tag == "img" || tag == "br" || tag == "input"

/-- Close the elements that are still open at the end of the input. -/
def closeAll : List (String × List (String × String) × List HtmlNode) → List HtmlNode →
    List HtmlNode
  | [], done => done.reverse
  | (t, a, outer) :: stack, done => closeAll stack (.element t a done.reverse :: outer)

/-- Tree construction: `stack` holds the open elements with the siblings already built
before each, `done` the children built so far for the innermost one, last first. -/
def buildTree : List Token → List (String × List (String × String) × List HtmlNode) →
    List HtmlNode → List HtmlNode
  | [], stack, done => closeAll stack done
  | .chars d :: ts, stack, done => buildTree ts stack (.text d :: done)
  | .startTag t a :: ts, stack, done =>
    if isVoid t then buildTree ts stack (.element t a [] :: done)
    else buildTree ts ((t, a, done) :: stack) []
  | .endTag _ :: ts, [], done => buildTree ts [] done
  | .endTag _ :: ts, (t, a, outer) :: stack, done =>
    buildTree ts stack (.element t a done.reverse :: outer)

/-- A fragment parser for well-formed markup of the kind the views of the application
write. -/
def parseHtml (s : String) : List HtmlNode := buildTree (tokenize (.data []) s.data) [] []

/-- The host of the examples. -/
def host : Host := { icons := "icons.svg", parseHTML := parseHtml }

/-- One list item in the manner of `PreviewView._generateMarkup`: a link whose class
attribute says whether the item is the active one, around the title. -/
def previewMarkup (r : JsValue) : String :=
  "<li class=\"preview\">\n<a class=\"preview__link " ++ (r.getField "active").asText ++
  "\" href=\"#" ++ (r.getField "id").asText ++ "\">\n<h4 class=\"preview__title\">" ++
  (r.getField "title").asText ++ "</h4>\n</a>\n</li>"

/-- A producer in the manner of `ResultsView._generateMarkup`:
`this._data.map(result => PreviewView.render(result, false)).join('')`. -/
def listMarkup : JsValue → Option String
  | .array items => some (String.join (items.map previewMarkup))
  | _ => none

/-- A producer for one recipe: its title and its publisher. -/
def titleMarkup (r : JsValue) : Option String :=
  some ("<h1 class=\"recipe__title\">" ++ (r.getField "title").asText ++
    "</h1><p class=\"recipe__publisher\">" ++ (r.getField "publisher").asText ++ "</p>")

/-- A producer whose outer element has an element as its first child. -/
def boxMarkup (r : JsValue) : Option String :=
  some ("<div class=\"box\"><span>" ++ (r.getField "title").asText ++ "</span></div>")

/-- A view of a child class with the given producer, before anything was rendered. -/
def emptyView (producer : JsValue → Option String) : View :=
  { _generateMarkup := producer
    _errMessage := some "No recipes found for your query! Please try again"
    _message := some ""
    _data := .undefined
    _parentElement := []
    detached := []
    nextId := 0 }

/-- A list entry. -/
def item (id title active : String) : JsValue :=
  .object [("id", .string id), ("title", .string title), ("active", .string active)]

/-- A recipe. -/
def recipe (title publisher : String) : JsValue :=
  .object [("title", .string title), ("publisher", .string publisher)]

/-- Search results with one entry, which is not the active one. -/
def oneResult : JsValue := .array [item "1" "Soup" ""]

/-- The same search results once the entry is the active one. -/
def oneResultActive : JsValue := .array [item "1" "Soup" "preview__link--active"]

/-- Bookmarks with two entries. -/
def twoBookmarks : JsValue := .array [item "1" "Soup" "", item "2" "Stew" ""]

/-- The same bookmarks once the second entry is the active one. -/
def twoBookmarksActive : JsValue :=
  .array [item "1" "Soup" "", item "2" "Stew" "preview__link--active"]

/-- Bookmarks with one entry of another title. -/
def otherBookmark : JsValue := .array [item "1" "Broth" ""]

/-- A recipe view that shows the recipe Soup by Ann. -/
def soupView : View := (View.render host (emptyView titleMarkup) (recipe "Soup" "Ann") true).1

end Example

/-- The tag of an element, and nothing for a text or comment node. -/
def Node.tagName : Node → String
  | .element _ t _ _ => t
  | _ => ""

/-! ## The model (`src/js/model.js`)

The state of the application. Recipe objects are shared between `state.recipe` and
`state.bookmarks`, so they live in a store and are named by references. Numbers are exact
rationals: rounding, `NaN` and the infinities of the language are outside the model, except
for the result of `Number(string)`, which may be `NaN`. -/

/-- The constant `API_URL` of `config.js`. -/
def API_URL : String := "https://forkify-api.herokuapp.com/api/v2/recipes"

/-- The constant `RES_PER_PAGE` of `config.js`. -/
def RES_PER_PAGE : Nat := 10

/-- The constant `API_KEY` of `config.js`. -/
def API_KEY : String := "786378a9-17fb-4888-b735-553b6c89e880"

/-- What `Number(string)` returns: a number or `NaN`. -/
inductive JsNumber where
  | num (q : ℚ)
  | nan
deriving DecidableEq

/-- An ingredient of a recipe as the API gives it: `quantity` is a number or `null`. -/
structure Ingredient where
  quantity : Option ℚ
  unit : String
  description : String
deriving DecidableEq

/-- The recipe of an API response, `data.data.recipe`; `key` is `none` when the property is
absent. -/
structure ApiRecipe where
  id : String
  title : String
  publisher : String
  source_url : String
  image_url : String
  servings : ℚ
  cooking_time : ℚ
  ingredients : List Ingredient
  key : Option String
deriving DecidableEq

/-- The properties `createRecipeObject` gives a recipe object. -/
structure Recipe where
  id : String
  title : String
  publisher : String
  sourceUrl : String
  image : String
  servings : ℚ
  cookingTime : ℚ
  ingredients : List Ingredient
  key : Option String
deriving DecidableEq

/-- A recipe object of the store: `fields` is `none` for the empty object `{}` the state
starts with, and `bookmarked` is `none` while the property is not set. -/
structure RecipeObject where
  fields : Option Recipe
  bookmarked : Option Bool
deriving DecidableEq

/-- An entry of `state.search.results`. -/
structure SearchResult where
  id : String
  title : String
  publisher : String
  image : String
  key : Option String
deriving DecidableEq

/-- The object `state.search`. -/
structure Search where
  query : String
  results : List SearchResult
  page : Int
  resultsPerPage : Nat
deriving DecidableEq

/-- An ingredient as `uploadRecipe` builds it from the form: `quantity` is `null` or the
result of `Number`. -/
structure UploadIngredient where
  quantity : Option JsNumber
  unit : String
  description : String
deriving DecidableEq

/-- The object `uploadRecipe` sends to the API; a text property is `none` when the form has
no such field. -/
structure UploadRecipe where
  title : Option String
  publisher : Option String
  source_url : Option String
  image_url : Option String
  cooking_time : JsNumber
  servings : JsNumber
  ingredients : List UploadIngredient
deriving DecidableEq

/-- One call of `AJAX(url, uploadData)`. -/
structure Request where
  url : String
  uploadData : Option UploadRecipe
deriving DecidableEq

/-- The state of the model: the store of recipe objects, the exported `state` with
`recipe` and `bookmarks` holding references, the value kept under the key `bookmarks` of
`localStorage` (what its JSON text stands for), and the calls of `AJAX` made so far. -/
structure State where
  objects : List RecipeObject
  recipe : Nat
  search : Search
  bookmarks : List Nat
  storage : Option (List RecipeObject)
  requests : List Request

/-- The slice `xs.slice(start, end)`: a negative index counts from the end, and both are
clamped to the length. -/
def jsSlice {α : Type} (xs : List α) (start stop : Int) : List α :=
  let len : Int := xs.length
  let k : Int := if start < 0 then max (len + start) 0 else min start len
  let final : Int := if stop < 0 then max (len + stop) 0 else min stop len
  (xs.drop k.toNat).take (max (final - k) 0).toNat

/-- The call `xs.findIndex(p)`: the index of the first element that satisfies `p`; `none`
stands for `-1`. -/
def jsFindIndex {α : Type} (p : α → Bool) : List α → Option Nat
  | [] => none
  | x :: xs => if p x then some 0 else (jsFindIndex p xs).map (fun i => i + 1)

/-- The parts of `s.split(',')`, on the characters of `s`. -/
def splitComma : List Char → List (List Char)
  | [] => [[]]
  | c :: cs =>
    if c = ',' then [] :: splitComma cs
    else
      match splitComma cs with
      | [] => [[c]]
      | part :: parts => (c :: part) :: parts

/-- The call `s.split(',')`. -/
def jsSplitComma (s : String) : List String :=
  (splitComma s.data).map String.mk

/-- The call `key.startsWith('ingredient-')`. -/
def startsWithIngredient (key : String) : Bool :=
  "ingredient-".data.isPrefixOf key.data

/-- The message of the error `uploadRecipe` throws for an ingredient that is not made of
three parts. -/
def wrongIngredientFormat : String :=
  "Wrong ingredient format! Please use the correct format."

namespace Model

/-- The state the module starts with. -/
def initial : State :=
  { objects := [{ fields := none, bookmarked := none }]
    recipe := 0
    search := { query := "", results := [], page := 1, resultsPerPage := RES_PER_PAGE }
    bookmarks := []
    storage := none
    requests := [] }

/-- The property `id` of the object behind a reference; `none` is `undefined`. -/
def idOf (s : State) (ref : Nat) : Option String :=
  match s.objects[ref]? with
  | some obj => obj.fields.map (fun r => r.id)
  | none => none

/-- The property `bookmarked` of the object behind a reference. -/
def bookmarkedOf (s : State) (ref : Nat) : Option Bool :=
  match s.objects[ref]? with
  | some obj => obj.bookmarked
  | none => none

/-- The assignment `object.bookmarked = value` through a reference. -/
def setBookmarked (s : State) (ref : Nat) (value : Bool) : State :=
  match s.objects[ref]? with
  | some obj => { s with objects := s.objects.set ref { obj with bookmarked := some value } }
  | none => s

/-- The function `createRecipeObject`: the properties are renamed, and `key` is kept only
when it is truthy. -/
def createRecipeObject (recipe : ApiRecipe) : RecipeObject :=
  { fields := some
      { id := recipe.id
        title := recipe.title
        publisher := recipe.publisher
        sourceUrl := recipe.source_url
        image := recipe.image_url
        servings := recipe.servings
        cookingTime := recipe.cooking_time
        ingredients := recipe.ingredients
        key := recipe.key.filter (fun k => k != "") }
    bookmarked := none }

/-- The function `loadRecipe(id)`. `response` is what `AJAX` returns: the recipe of the
response, or `none` for `undefined`, on which `createRecipeObject` throws. -/
def loadRecipe (s : State) (id : String) (response : Option ApiRecipe) :
    State × Completion Unit :=
  let s := { s with
    requests := s.requests ++ [{ url := API_URL ++ "/" ++ id ++ "?key=" ++ API_KEY,
                                 uploadData := none }] }
  match response with
  | none => (s, .throw "TypeError: Cannot read properties of undefined (reading 'data')")
  | some recipe =>
    let s := { s with objects := s.objects ++ [createRecipeObject recipe],
                      recipe := s.objects.length }
    if s.bookmarks.any (fun bookmark => idOf s bookmark == some id) then
      (setBookmarked s s.recipe true, .normal ())
    else (s, .normal ())

/-- The function `getSearchResultsPage(page = state.search.page)`; `none` is a call without
argument. The result pairs the state afterwards with the returned page of results. -/
def getSearchResultsPage (s : State) (page : Option Int) : State × List SearchResult :=
  let page : Int := match page with
    | some p => p
    | none => s.search.page
  let start : Int := (page - 1) * (s.search.resultsPerPage : Int)
  let stop : Int := page * (s.search.resultsPerPage : Int)
  ({ s with search := { s.search with page := page } }, jsSlice s.search.results start stop)

/-- The function `updateServings(newServings)`: each quantity becomes
`(ing.quantity * newServings) / state.recipe.servings`, where `null` counts as `0` in the
product, and then the servings are set. On the empty object `{}` the call
`state.recipe.ingredients.forEach` throws. -/
def updateServings (s : State) (newServings : ℚ) : State × Completion Unit :=
  match s.objects[s.recipe]? with
  | some { fields := some r, bookmarked := b } =>
    let ingredients := r.ingredients.map (fun ing =>
      { ing with quantity := some ((ing.quantity.getD 0 * newServings) / r.servings) })
    let recipe : Recipe := { r with ingredients := ingredients, servings := newServings }
    let object : RecipeObject := { fields := some recipe, bookmarked := b }
    ({ s with objects := s.objects.set s.recipe object }, .normal ())
  | _ => (s, .throw "TypeError: Cannot read properties of undefined (reading 'forEach')")

/-- The function `persistBookmarks`:
`localStorage.setItem('bookmarks', JSON.stringify(state.bookmarks))`. -/
def persistBookmarks (s : State) : State :=
  { s with storage := some (s.bookmarks.filterMap (fun ref => s.objects[ref]?)) }

/-- The function `addBookmark(recipe)`. -/
def addBookmark (s : State) (recipe : Nat) : State :=
  let s := { s with bookmarks := s.bookmarks ++ [recipe] }
  let s := setBookmarked s s.recipe true
  persistBookmarks s

/-- The function `deleteBookmark(id)`; an `id` that is `undefined` is `none`. When no
bookmark has the id, `findIndex` gives `-1`, `state.bookmarks[-1]` is `undefined` and the
assignment throws. Otherwise `index` is an index of the array, and `state.bookmarks[index]`
is the reference found there. -/
def deleteBookmark (s : State) (id : Option String) : State × Completion Unit :=
  match jsFindIndex (fun recipe => id == idOf s recipe) s.bookmarks with
  | none =>
    (s, .throw "TypeError: Cannot set properties of undefined (setting 'bookmarked')")
  | some index =>
    let s := setBookmarked s (s.bookmarks.getD index 0) false
    let s := { s with bookmarks := s.bookmarks.eraseIdx index }
    (persistBookmarks s, .normal ())

/-- The part of `controlToggleBookmark` that acts on the model: the bookmark of the
displayed recipe is added when `state.recipe.bookmarked` is falsy and deleted otherwise. -/
def controlToggleBookmark (s : State) : State × Completion Unit :=
  if !(bookmarkedOf s s.recipe).getD false then (addBookmark s s.recipe, .normal ())
  else deleteBookmark s (idOf s s.recipe)

/-- The callback of `.map(ingredient => ...)` in `uploadRecipe`, on the value of an entry:
the value is split on commas and each part is trimmed; the error is thrown unless there are
exactly three parts, which are then named `quantity`, `unit` and `description`. The
condition of `'' ? null : Number(quantity)` is the empty string literal. `toNumber` is the
builtin `Number` on strings. -/
def parseIngredient (toNumber : String → JsNumber) (value : String) :
    Completion UploadIngredient :=
  let ingArray := (jsSplitComma value).map jsTrim
  match ingArray with
  | [quantity, unit, description] =>
    .normal
      { quantity := if (JsValue.string "").toBoolean then none else some (toNumber quantity)
        unit := unit
        description := description }
  | _ => .throw wrongIngredientFormat

/-- The call `.map(ingredient => ...)` of `uploadRecipe`: the entries are taken in order and
the first error ends the call. -/
def mapIngredients (toNumber : String → JsNumber) :
    List (String × String) → Completion (List UploadIngredient)
  | [] => .normal []
  | ingredient :: rest =>
    match parseIngredient toNumber ingredient.2 with
    | .throw e => .throw e
    | .normal first =>
      match mapIngredients toNumber rest with
      | .throw e => .throw e
      | .normal others => .normal (first :: others)

/-- The property read `newRecipe[key]` on the object made from the form. -/
def formField (newRecipe : List (String × String)) (key : String) : Option String :=
  (newRecipe.find? (fun entry => entry.1 == key)).map (fun entry => entry.2)

/-- The call `Number(newRecipe[key])`: `NaN` for a property that is `undefined`. -/
def numberOfField (toNumber : String → JsNumber) : Option String → JsNumber
  | some text => toNumber text
  | none => .nan

/-- The function `uploadRecipe(newRecipe)`. `newRecipe` is the object made from the form,
as the list `Object.entries(newRecipe)`; `toNumber` is the builtin `Number` on strings and
`response` is what `AJAX` returns, as in `loadRecipe`. -/
def uploadRecipe (toNumber : String → JsNumber) (s : State)
    (newRecipe : List (String × String)) (response : Option ApiRecipe) :
    State × Completion Unit :=
  let entries := newRecipe.filter (fun entry => startsWithIngredient entry.1 && entry.2 != "")
  match mapIngredients toNumber entries with
  | .throw e => (s, .throw e)
  | .normal ingredients =>
    let recipe : UploadRecipe :=
      { title := formField newRecipe "title"
        publisher := formField newRecipe "publisher"
        source_url := formField newRecipe "sourceUrl"
        image_url := formField newRecipe "image"
        cooking_time := numberOfField toNumber (formField newRecipe "cookingTime")
        servings := numberOfField toNumber (formField newRecipe "servings")
        ingredients := ingredients }
    let url := API_URL ++ "?search=" ++ templateText recipe.title ++ "&key=" ++ API_KEY
    let s := { s with requests := s.requests ++ [{ url := url, uploadData := some recipe }] }
    match response with
    | none => (s, .throw "TypeError: Cannot read properties of undefined (reading 'data')")
    | some data =>
      let s := { s with objects := s.objects ++ [createRecipeObject data],
                        recipe := s.objects.length }
      let s := addBookmark s s.recipe
      (persistBookmarks s, .normal ())

/-- Every reference of the state names an object of the store. -/
def WellFormed (s : State) : Prop :=
  s.recipe < s.objects.length ∧ ∀ ref ∈ s.bookmarks, ref < s.objects.length

instance (s : State) : Decidable (WellFormed s) := by
  unfold WellFormed
  exact inferInstance

end Model

namespace Example

/-- The value of a string of decimal digits. -/
def digitsValue : List Char → Nat → Option Nat
  | [], acc => some acc
  | c :: cs, acc => if c.isDigit then digitsValue cs (acc * 10 + (c.toNat - 48)) else none

/-- The builtin `Number` on the strings of the examples: the empty string, which gives `0`,
and strings of decimal digits; white space around them is ignored. -/
def toNumber (s : String) : JsNumber :=
  match (jsTrim s).data with
  | [] => .num 0
  | c :: cs =>
    match digitsValue (c :: cs) 0 with
    | some n => .num n
    | none => .nan

/-- A search result of the examples. -/
def result (n : Nat) : SearchResult :=
  { id := "r" ++ toString n, title := "Recipe", publisher := "Ann", image := "r.png",
    key := none }

/-- A state whose search holds the 25 results `r0` to `r24`, ten to a page. -/
def twentyFiveResults : State :=
  { Model.initial with
    search := { query := "soup", results := (List.range 25).map result, page := 1,
                resultsPerPage := 10 } }

/-- A recipe of an API response. -/
def apiSoup : ApiRecipe :=
  { id := "soup", title := "Soup", publisher := "Ann", source_url := "soup.html",
    image_url := "soup.png", servings := 4, cooking_time := 30,
    ingredients := [{ quantity := some 2, unit := "cup", description := "stock" },
                    { quantity := none, unit := "", description := "salt" }],
    key := none }

/-- Another recipe of an API response. -/
def apiStew : ApiRecipe :=
  { id := "stew", title := "Stew", publisher := "Bob", source_url := "stew.html",
    image_url := "stew.png", servings := 2, cooking_time := 90,
    ingredients := [{ quantity := some 1, unit := "kg", description := "beef" }],
    key := none }

/-- The recipe `createRecipeObject` makes of the response Soup. -/
def soupRecipe : Recipe :=
  { id := "soup", title := "Soup", publisher := "Ann", sourceUrl := "soup.html",
    image := "soup.png", servings := 4, cookingTime := 30,
    ingredients := [{ quantity := some 2, unit := "cup", description := "stock" },
                    { quantity := none, unit := "", description := "salt" }],
    key := none }

/-- The state once the recipe Soup was loaded. -/
def soupLoaded : State := (Model.loadRecipe Model.initial "soup" (some apiSoup)).1

/-- The state once the recipe Soup was loaded and bookmarked. -/
def soupBookmarked : State := (Model.controlToggleBookmark soupLoaded).1

/-- The state once the bookmarked recipe Soup was loaded a second time. -/
def soupReloaded : State := (Model.loadRecipe soupBookmarked "soup" (some apiSoup)).1

/-- A form with a title and two ingredients. -/
def soupForm : List (String × String) :=
  [("title", "Soup"), ("sourceUrl", "soup.html"), ("image", "soup.png"),
   ("publisher", "Ann"), ("cookingTime", "30"), ("servings", "4"),
   ("ingredient-1", "1, gram , tomato sauce"), ("ingredient-2", ""),
   ("ingredient-3", ",gram,salt")]

/-- A form whose second ingredient has two parts. -/
def badForm : List (String × String) :=
  [("title", "Soup"), ("ingredient-1", "1,gram,salt"), ("ingredient-2", "salt,pepper")]

end Example

/-! ## The pagination view (`src/js/views/PaginationView.js`) -/

/-- The value of `Math.ceil(resultsLength / resultsPerPage)` for two array lengths: a
natural number, or `Infinity` or `NaN` when the divisor is `0`. -/
inductive PageCount where
  | finite (n : Nat)
  | infinity
  | nan
deriving DecidableEq

namespace PageCount

/-- The comparison `numPages > k`. -/
def greaterThan : PageCount → Int → Bool
  | finite n, k => decide (k < (n : Int))
  | infinity, _ => true
  | nan, _ => false

/-- The comparison `k === numPages`. -/
def strictEquals (k : Int) : PageCount → Bool
  | finite n => decide (k = (n : Int))
  | infinity => false
  | nan => false

end PageCount

namespace PaginationView

/-- The expression `Math.ceil(resultsLength / resultsPerPage)`, over exact arithmetic: the
least natural number `n` with `resultsLength ≤ n * resultsPerPage` when the divisor is not
`0`. -/
def numPages (data : Search) : PageCount :=
  if data.resultsPerPage = 0 then
    if data.results.length = 0 then .nan else .infinity
  else .finite ((data.results.length + data.resultsPerPage - 1) / data.resultsPerPage)

/-- The template literal `prevButton` of `_generateMarkup`. -/
def prevButton (icons : String) (currPage : Int) : String :=
  "<button data-goto=\"" ++ toString (currPage - 1) ++
  "\"button class=\"btn--inline pagination__btn--prev\">\n" ++
  "            <svg class=\"search__icon\">\n" ++
  "                <use href=\"" ++ icons ++ "#icon-arrow-left\"></use>\n" ++
  "            </svg>\n" ++
  "         <span>Page " ++ toString (currPage - 1) ++ "</span>               \n" ++
  "        </button>"

/-- The template literal `nextButton` of `_generateMarkup`. -/
def nextButton (icons : String) (currPage : Int) : String :=
  "\n    <button data-goto=\"" ++ toString (currPage + 1) ++
  "\"class=\"btn--inline pagination__btn--next\">\n" ++
  "      <span>Page " ++ toString (currPage + 1) ++ "</span>\n" ++
  "      <svg class=\"search__icon\">\n" ++
  "        <use href=\"" ++ icons ++ "#icon-arrow-right\"></use>\n" ++
  "      </svg>\n" ++
  "    </button>"

/-- The method `_generateMarkup` of `PaginationView`, on `this._data`, which is
`state.search`; `icons` is the import of the icon sprite. -/
def _generateMarkup (icons : String) (data : Search) : String :=
  let resultsLength := data.results.length
  let resultsPerPage := data.resultsPerPage
  let numPages := numPages data
  let currPage := data.page
  if currPage = 1 && numPages.greaterThan 1 then nextButton icons currPage
  else if decide (resultsLength ≤ resultsPerPage) || PageCount.strictEquals currPage numPages then
    prevButton icons currPage
  else prevButton icons currPage ++ nextButton icons currPage

end PaginationView

/-! ## The request helper (`src/js/helpers.js`) -/

/-- The constant `TIMEOUT_SEC` of `config.js`. -/
def TIMEOUT_SEC : Nat := 10

/-- A response of `fetch`: the flag `ok`, the status code and what `res.json()` settles
to. -/
structure Response where
  ok : Bool
  status : Nat
  json : Completion JsValue

/-- How `Promise.race([fetchPro, timeout(TIMEOUT_SEC)])` settles: the request is answered,
or it is rejected, or the timer of `timeout` fires first. -/
inductive Settled where
  | response (res : Response)
  | rejected (error : String)
  | timedOut

/-- The message of the error `timeout(s)` rejects with. -/
def timeoutMessage (s : Nat) : String :=
  "Request took too long! Timeout after " ++ toString s ++ " second"

/-- The property read `data.message`, which throws on `null` and `undefined`. -/
def readMessage : JsValue → Completion JsValue
  | .null => .throw "TypeError: Cannot read properties of null (reading 'message')"
  | .undefined => .throw "TypeError: Cannot read properties of undefined (reading 'message')"
  | data => .normal (data.getField "message")

/-- The body of the `try` block of `AJAX`, from the settling of the race on. -/
def AJAX.tryBlock (settled : Settled) : Completion JsValue :=
  match settled with
  | .rejected error => .throw error
  | .timedOut => .throw (timeoutMessage TIMEOUT_SEC)
  | .response res =>
    match res.json with
    | .throw error => .throw error
    | .normal data =>
      if !res.ok then
        match readMessage data with
        | .throw error => .throw error
        | .normal message => .throw (message.asText ++ " " ++ toString res.status)
      else .normal data

/-- The function `AJAX(url, uploadData)`, from the settling of the race on: the `try` block
with its handler `catch (err) {}`, after which the function ends without a `return`. `none`
is the value `undefined`. -/
def AJAX (settled : Settled) : Completion (Option JsValue) :=
  match AJAX.tryBlock settled with
  | .normal data => .normal (some data)
  | .throw _ => .normal none

namespace Example

/-- A search with the five results `r0` to `r4`, ten to a page, on page 1. -/
def fiveResults : Search :=
  { query := "soup", results := (List.range 5).map result, page := 1, resultsPerPage := 10 }

/-- The search with 25 results, ten to a page, on the given page. -/
def pageOf25 (page : Int) : Search :=
  { twentyFiveResults.search with page := page }

/-- The attributes of the buttons at the top of a parsed markup. -/
def buttonAttributes (forest : List HtmlNode) : List (List (String × String)) :=
  forest.filterMap (fun n =>
    match n with
    | .element "button" attrs _ => some attrs
    | _ => none)

/-- The answer of the API to a request for a recipe that does not exist. -/
def notFound : Response :=
  { ok := false, status := 400,
    json := .normal (.object [("status", .string "fail"),
                              ("message", .string "Invalid _id: 123")]) }

/-- An answer of the API with a body. -/
def found : Response :=
  { ok := true, status := 200,
    json := .normal (.object [("status", .string "success")]) }

end Example

/-! ## Nodes, identities and markup -/

namespace Node

theorem nodesList_append (a b : List Node) : nodesList (a ++ b) = nodesList a ++ nodesList b := by
  induction a with
  | nil => simp [nodesList]
  | cons n ns ih => simp [nodesList, ih]

theorem idsList_append (a b : List Node) : idsList (a ++ b) = idsList a ++ idsList b := by
  induction a with
  | nil => simp [idsList]
  | cons n ns ih => simp [idsList, ih]

theorem replaceAtList_append (ref : Nat) (new : Node) (a b : List Node) :
    replaceAtList ref new (a ++ b) = replaceAtList ref new a ++ replaceAtList ref new b := by
  induction a with
  | nil => simp [replaceAtList]
  | cons n ns ih => simp [replaceAtList, ih]

mutual
theorem ids_eq_map : ∀ n : Node, n.ids = n.nodes.map Node.id
  | element i t a cs => by simp [ids, nodes, Node.id, idsList_eq_map cs]
  | text i d => by simp [ids, nodes, Node.id]
  | comment i d => by simp [ids, nodes, Node.id]
theorem idsList_eq_map : ∀ f : List Node, idsList f = (nodesList f).map Node.id
  | [] => by simp [idsList, nodesList]
  | n :: ns => by simp [idsList, nodesList, ids_eq_map n, idsList_eq_map ns]
end

mutual
theorem strip_alloc : ∀ (n : HtmlNode) (k : Nat), (n.alloc k).strip = n
  | .element t a cs, k => by simp [HtmlNode.alloc, strip, stripList_allocList cs]
  | .text d, k => by simp [HtmlNode.alloc, strip]
  | .comment d, k => by simp [HtmlNode.alloc, strip]
theorem stripList_allocList : ∀ (f : List HtmlNode) (k : Nat),
    stripList (HtmlNode.allocList k f) = f
  | [], k => by simp [HtmlNode.allocList, stripList]
  | n :: ns, k => by simp [HtmlNode.allocList, stripList, strip_alloc n, stripList_allocList ns]
end

mutual
theorem ids_alloc : ∀ (n : HtmlNode) (k : Nat), (n.alloc k).ids = List.range' k n.size
  | .element t a cs, k => by
    simp [HtmlNode.alloc, ids, HtmlNode.size, idsList_allocList cs, Nat.add_comm 1,
      List.range'_succ]
  | .text d, k => by simp [HtmlNode.alloc, ids, HtmlNode.size]
  | .comment d, k => by simp [HtmlNode.alloc, ids, HtmlNode.size]
theorem idsList_allocList : ∀ (f : List HtmlNode) (k : Nat),
    idsList (HtmlNode.allocList k f) = List.range' k (HtmlNode.sizeList f)
  | [], k => by simp [HtmlNode.allocList, idsList, HtmlNode.sizeList]
  | n :: ns, k => by
    simp [HtmlNode.allocList, idsList, HtmlNode.sizeList, ids_alloc n, idsList_allocList ns,
      List.range'_append_1, Nat.add_comm]
end

theorem id_mem_ids (n : Node) : n.id ∈ n.ids := by
  cases n <;> simp [Node.id, ids]

theorem self_mem_nodes (n : Node) : n ∈ n.nodes := by
  cases n <;> simp [nodes]

mutual
theorem ids_subset_of_mem_nodes : ∀ (n b : Node), b ∈ n.nodes → b.ids ⊆ n.ids
  | element i t a cs, b, hb => by
    simp only [nodes, List.mem_cons] at hb
    rcases hb with rfl | hb
    · exact fun _ hx => hx
    · intro x hx
      simp only [ids, List.mem_cons]
      exact Or.inr (ids_subset_of_mem_nodesList cs b hb hx)
  | text i d, b, hb => by
    simp only [nodes, List.mem_singleton] at hb
    subst hb
    exact fun _ hx => hx
  | comment i d, b, hb => by
    simp only [nodes, List.mem_singleton] at hb
    subst hb
    exact fun _ hx => hx
theorem ids_subset_of_mem_nodesList : ∀ (f : List Node) (b : Node),
    b ∈ nodesList f → b.ids ⊆ idsList f
  | [], b, hb => by simp [nodesList] at hb
  | n :: ns, b, hb => by
    simp only [nodesList, List.mem_append] at hb
    intro x hx
    simp only [idsList, List.mem_append]
    rcases hb with hb | hb
    · exact Or.inl (ids_subset_of_mem_nodes n b hb hx)
    · exact Or.inr (ids_subset_of_mem_nodesList ns b hb hx)
end

/-- In a forest whose identities are all different, a node is determined by its identity. -/
theorem eq_of_id_eq {f : List Node} (hnd : (idsList f).Nodup) {a b : Node}
    (ha : a ∈ nodesList f) (hb : b ∈ nodesList f) (hid : a.id = b.id) : a = b := by
  rw [idsList_eq_map] at hnd
  exact List.inj_on_of_nodup_map hnd ha hb hid

/-- Looking a node up by its identity finds it when identities are all different. -/
theorem find_of_mem {f : List Node} (hnd : (idsList f).Nodup) {n : Node}
    (hn : n ∈ nodesList f) :
    (nodesList f).find? (fun m => m.id == n.id) = some n := by
  cases hfind : (nodesList f).find? (fun m => m.id == n.id) with
  | none =>
    rw [List.find?_eq_none] at hfind
    exact absurd (by simp) (hfind n hn)
  | some m =>
    have hm := List.mem_of_find?_eq_some hfind
    have hid := List.find?_some hfind
    simp only [beq_iff_eq] at hid
    rw [eq_of_id_eq hnd hm hn hid]

/-! ## Replacing a node in a forest -/

mutual
theorem replaceAt_of_not_mem (ref : Nat) (new : Node) :
    ∀ r : Node, ref ∉ r.ids → replaceAt ref new r = r
  | element i t a cs, h => by
    simp only [ids, List.mem_cons, not_or] at h
    simp [replaceAt, Ne.symm h.1, replaceAtList_of_not_mem ref new cs h.2]
  | text i d, h => by
    simp only [ids, List.mem_singleton] at h
    simp [replaceAt, Ne.symm h]
  | comment i d, h => by
    simp only [ids, List.mem_singleton] at h
    simp [replaceAt, Ne.symm h]
theorem replaceAtList_of_not_mem (ref : Nat) (new : Node) :
    ∀ f : List Node, ref ∉ idsList f → replaceAtList ref new f = f
  | [], _ => by simp [replaceAtList]
  | r :: rs, h => by
    simp only [idsList, List.mem_append, not_or] at h
    simp [replaceAtList, replaceAt_of_not_mem ref new r h.1,
      replaceAtList_of_not_mem ref new rs h.2]
end

mutual
theorem mem_nodes_replaceAt (ref : Nat) (new n : Node) (hn : ref ∉ n.ids) :
    ∀ r : Node, n ∈ r.nodes →
      n ∈ (replaceAt ref new r).nodes ∨ ∃ c ∈ r.nodes, c.id = ref ∧ n ∈ nodesList c.childNodes
  | element i t a cs, h => by
    simp only [nodes, List.mem_cons] at h
    by_cases hi : i = ref
    · rcases h with rfl | h
      · exact absurd (by simp [ids, hi]) hn
      · exact Or.inr ⟨element i t a cs, self_mem_nodes _, hi, h⟩
    · rcases h with rfl | h
      · left
        rw [replaceAt_of_not_mem ref new _ hn]
        exact self_mem_nodes _
      · rcases mem_nodesList_replaceAtList ref new n hn cs h with h1 | ⟨c, hc, hid, hmem⟩
        · left
          simp only [replaceAt, hi, if_false, nodes, List.mem_cons]
          exact Or.inr h1
        · right
          refine ⟨c, ?_, hid, hmem⟩
          simp only [nodes, List.mem_cons]
          exact Or.inr hc
  | text i d, h => by
    simp only [nodes, List.mem_singleton] at h
    subst h
    left
    rw [replaceAt_of_not_mem ref new _ hn]
    exact self_mem_nodes _
  | comment i d, h => by
    simp only [nodes, List.mem_singleton] at h
    subst h
    left
    rw [replaceAt_of_not_mem ref new _ hn]
    exact self_mem_nodes _
theorem mem_nodesList_replaceAtList (ref : Nat) (new n : Node) (hn : ref ∉ n.ids) :
    ∀ f : List Node, n ∈ nodesList f →
      n ∈ nodesList (replaceAtList ref new f) ∨
        ∃ c ∈ nodesList f, c.id = ref ∧ n ∈ nodesList c.childNodes
  | [], h => by simp [nodesList] at h
  | r :: rs, h => by
    simp only [nodesList, List.mem_append] at h
    simp only [replaceAtList, nodesList, List.mem_append]
    rcases h with h | h
    · rcases mem_nodes_replaceAt ref new n hn r h with h1 | ⟨c, hc, hid, hmem⟩
      · exact Or.inl (Or.inl h1)
      · exact Or.inr ⟨c, Or.inl hc, hid, hmem⟩
    · rcases mem_nodesList_replaceAtList ref new n hn rs h with h1 | ⟨c, hc, hid, hmem⟩
      · exact Or.inl (Or.inr h1)
      · exact Or.inr ⟨c, Or.inr hc, hid, hmem⟩
end

mutual
theorem nodes_subset_replaceAt (ref : Nat) (new : Node) :
    ∀ r : Node, ref ∈ r.ids → ∀ n ∈ new.nodes, n ∈ (replaceAt ref new r).nodes
  | element i t a cs, h, n, hn => by
    by_cases hi : i = ref
    · simpa [replaceAt, hi] using hn
    · simp only [ids, List.mem_cons] at h
      have hcs : ref ∈ idsList cs := h.resolve_left (fun e => hi e.symm)
      simp only [replaceAt, hi, if_false, nodes, List.mem_cons]
      exact Or.inr (nodes_subset_replaceAtList ref new cs hcs n hn)
  | text i d, h, n, hn => by
    simp only [ids, List.mem_singleton] at h
    simpa [replaceAt, h] using hn
  | comment i d, h, n, hn => by
    simp only [ids, List.mem_singleton] at h
    simpa [replaceAt, h] using hn
theorem nodes_subset_replaceAtList (ref : Nat) (new : Node) :
    ∀ f : List Node, ref ∈ idsList f → ∀ n ∈ new.nodes, n ∈ nodesList (replaceAtList ref new f)
  | [], h, _, _ => by simp [idsList] at h
  | r :: rs, h, n, hn => by
    simp only [idsList, List.mem_append] at h
    simp only [replaceAtList, nodesList, List.mem_append]
    rcases h with h | h
    · exact Or.inl (nodes_subset_replaceAt ref new r h n hn)
    · exact Or.inr (nodes_subset_replaceAtList ref new rs h n hn)
end

theorem perm_append_middle {A B C D N : List Nat} (ih : (A ++ C).Perm (D ++ N)) :
    ((A ++ B) ++ C).Perm ((D ++ B) ++ N) := by
  have h1 : ((A ++ B) ++ C).Perm ((A ++ C) ++ B) := by
    rw [List.append_assoc, List.append_assoc]
    exact List.Perm.append_left _ List.perm_append_comm
  have h3 : ((D ++ N) ++ B).Perm ((D ++ B) ++ N) := by
    rw [List.append_assoc, List.append_assoc]
    exact List.Perm.append_left _ List.perm_append_comm
  exact h1.trans ((List.Perm.append_right B ih).trans h3)

mutual
theorem perm_ids_replaceAt (new c : Node) :
    ∀ r : Node, r.ids.Nodup → c ∈ r.nodes →
      ((replaceAt c.id new r).ids ++ c.ids).Perm (r.ids ++ new.ids)
  | element i t a cs, hnd, hc => by
    simp only [ids, List.nodup_cons] at hnd
    simp only [nodes, List.mem_cons] at hc
    by_cases hi : i = c.id
    · have hcr : c = element i t a cs := by
        rcases hc with h | h
        · exact h
        · exact absurd (hi ▸ ids_subset_of_mem_nodesList cs c h (id_mem_ids c)) hnd.1
      simp only [replaceAt, hi, if_true]
      rw [hcr]
      exact List.perm_append_comm
    · have hc2 : c ∈ nodesList cs := by
        rcases hc with h | h
        · exact absurd (by rw [h]; rfl) hi
        · exact h
      simp only [replaceAt, hi, if_false, ids, List.cons_append]
      exact List.Perm.cons i (perm_ids_replaceAtList new c cs hnd.2 hc2)
  | text i d, _, hc => by
    simp only [nodes, List.mem_singleton] at hc
    subst hc
    simp only [replaceAt, Node.id, if_true]
    exact List.perm_append_comm
  | comment i d, _, hc => by
    simp only [nodes, List.mem_singleton] at hc
    subst hc
    simp only [replaceAt, Node.id, if_true]
    exact List.perm_append_comm
theorem perm_ids_replaceAtList (new c : Node) :
    ∀ f : List Node, (idsList f).Nodup → c ∈ nodesList f →
      (idsList (replaceAtList c.id new f) ++ c.ids).Perm (idsList f ++ new.ids)
  | [], _, hc => by simp [nodesList] at hc
  | r :: rs, hnd, hc => by
    simp only [idsList, List.nodup_append] at hnd
    obtain ⟨hr, hrs, hdisj⟩ := hnd
    simp only [nodesList, List.mem_append] at hc
    simp only [replaceAtList, idsList]
    rcases hc with hc | hc
    · have hnot : c.id ∉ idsList rs := fun h =>
        hdisj (ids_subset_of_mem_nodes r c hc (id_mem_ids c)) h
      rw [replaceAtList_of_not_mem _ _ _ hnot]
      have ih := perm_ids_replaceAt new c r hr hc
      exact perm_append_middle ih
    · have hnot : c.id ∉ r.ids := fun h =>
        hdisj h (ids_subset_of_mem_nodesList rs c hc (id_mem_ids c))
      rw [replaceAt_of_not_mem _ _ _ hnot]
      have ih := perm_ids_replaceAtList new c rs hrs hc
      rw [List.append_assoc, List.append_assoc]
      exact List.Perm.append_left _ ih
end

mutual
theorem pairwise_nodes :
    ∀ r : Node, r.ids.Nodup → r.nodes.Pairwise (fun a b => a.id ∉ b.ids)
  | element i t a cs, hnd => by
    simp only [ids, List.nodup_cons] at hnd
    simp only [nodes, List.pairwise_cons]
    refine ⟨fun b hb hmem => hnd.1 (ids_subset_of_mem_nodesList cs b hb hmem), ?_⟩
    exact pairwise_nodesList cs hnd.2
  | text i d, _ => by simp [nodes]
  | comment i d, _ => by simp [nodes]
/-- Nodes listed in tree order: no node lies below a later one. -/
theorem pairwise_nodesList :
    ∀ f : List Node, (idsList f).Nodup → (nodesList f).Pairwise (fun a b => a.id ∉ b.ids)
  | [], _ => by simp [nodesList]
  | r :: rs, hnd => by
    simp only [idsList, List.nodup_append] at hnd
    obtain ⟨hr, hrs, hdisj⟩ := hnd
    simp only [nodesList, List.pairwise_append]
    refine ⟨pairwise_nodes r hr, pairwise_nodesList rs hrs, ?_⟩
    intro a ha b hb hmem
    exact hdisj (ids_subset_of_mem_nodes r a ha (id_mem_ids a))
      (ids_subset_of_mem_nodesList rs b hb hmem)
end

theorem mem_nodes_of_mem_childNodes (r n : Node) (h : n ∈ nodesList r.childNodes) :
    n ∈ r.nodes := by
  cases r with
  | element i t a cs =>
    simp only [nodes, List.mem_cons]
    exact Or.inr h
  | text i d => simp [childNodes, nodesList] at h
  | comment i d => simp [childNodes, nodesList] at h

end Node

/-! ## The state behind the references of `update` -/

namespace View

theorem getNode_of_mem {v : View} (hwf : v.WellFormed) {n : Node}
    (hn : n ∈ Node.nodesList (v._parentElement ++ v.detached)) : v.getNode n.id = some n :=
  Node.find_of_mem hwf.1 hn

theorem mem_of_getNode {v : View} {ref : Nat} {n : Node} (h : v.getNode ref = some n) :
    n ∈ Node.nodesList (v._parentElement ++ v.detached) ∧ n.id = ref := by
  refine ⟨List.mem_of_find?_eq_some h, ?_⟩
  have := List.find?_some h
  simpa using this

theorem store_replaceNode (v : View) (ref : Nat) (new : Node) (removed : List Node)
    (created : Nat) :
    (v.replaceNode ref new removed created)._parentElement ++
        (v.replaceNode ref new removed created).detached =
      Node.replaceAtList ref new (v._parentElement ++ v.detached) ++ removed := by
  simp [replaceNode, Node.replaceAtList_append]

/-- Replacing a node by one of the same identity keeps the state well formed when the
identities of the new node and of the removed children are those of the old node and
the ones just created. -/
theorem wellFormed_replaceNode {v : View} (hwf : v.WellFormed) {cur new : Node}
    {removed : List Node} {created : Nat}
    (hcur : cur ∈ Node.nodesList (v._parentElement ++ v.detached))
    (hperm : (new.ids ++ Node.idsList removed).Perm
      (cur.ids ++ List.range' v.nextId created)) :
    (v.replaceNode cur.id new removed created).WellFormed := by
  have hP := Node.perm_ids_replaceAtList new cur _ hwf.1 hcur
  have key : (Node.idsList (Node.replaceAtList cur.id new (v._parentElement ++ v.detached))
      ++ Node.idsList removed).Perm
      (Node.idsList (v._parentElement ++ v.detached) ++ List.range' v.nextId created) := by
    have h1 := @Node.perm_append_middle _ (Node.idsList removed) _ _ _ hP
    have h2 : ((Node.idsList (v._parentElement ++ v.detached) ++ Node.idsList removed)
        ++ new.ids).Perm
        ((Node.idsList (v._parentElement ++ v.detached) ++ List.range' v.nextId created)
          ++ cur.ids) := by
      rw [List.append_assoc, List.append_assoc]
      refine List.Perm.append_left _ ?_
      exact (List.perm_append_comm.trans hperm).trans List.perm_append_comm
    exact (List.perm_append_right_iff cur.ids).1 (h1.trans h2)
  have hnd : (Node.idsList (v._parentElement ++ v.detached)
      ++ List.range' v.nextId created).Nodup := by
    rw [List.nodup_append]
    refine ⟨hwf.1, List.nodup_range' _ _, ?_⟩
    intro x hx hy
    have := hwf.2 x hx
    rw [List.mem_range'_1] at hy
    omega
  unfold WellFormed
  rw [store_replaceNode, Node.idsList_append]
  refine ⟨key.nodup_iff.2 hnd, ?_⟩
  intro i hi
  have hi2 := key.mem_iff.1 hi
  rw [List.mem_append, List.mem_range'_1] at hi2
  simp only [replaceNode]
  rcases hi2 with h | h
  · have := hwf.2 i h
    omega
  · omega

/-- Replacing a node keeps every node that does not contain it, provided the children of
the old node stay children or go to the removed ones. -/
theorem mem_store_replaceNode {v : View} (hwf : v.WellFormed) {cur new : Node}
    {removed : List Node} {created : Nat}
    (hcur : cur ∈ Node.nodesList (v._parentElement ++ v.detached))
    (hkids : ∀ n ∈ Node.nodesList cur.childNodes,
      n ∈ Node.nodesList new.childNodes ∨ n ∈ Node.nodesList removed)
    {n : Node} (hn : n ∈ Node.nodesList (v._parentElement ++ v.detached))
    (hnot : cur.id ∉ n.ids) :
    n ∈ Node.nodesList ((v.replaceNode cur.id new removed created)._parentElement ++
      (v.replaceNode cur.id new removed created).detached) := by
  rw [store_replaceNode, Node.nodesList_append, List.mem_append]
  rcases Node.mem_nodesList_replaceAtList cur.id new n hnot _ hn with h | ⟨c, hc, hid, hmem⟩
  · exact Or.inl h
  · have hcc : c = cur := Node.eq_of_id_eq hwf.1 hc hcur hid
    subst hcc
    rcases hkids n hmem with h | h
    · left
      refine Node.nodes_subset_replaceAtList c.id new _ ?_ n
        (Node.mem_nodes_of_mem_childNodes new n h)
      exact Node.ids_subset_of_mem_nodesList _ c hcur (Node.id_mem_ids c)
    · exact Or.inr h

theorem holds_replaceNode {v : View} {refs : List Node} (hv : v.Holds refs) (cur : Node)
    {new : Node} {removed : List Node} {created : Nat}
    (hcur : cur ∈ Node.nodesList (v._parentElement ++ v.detached))
    (hperm : (new.ids ++ Node.idsList removed).Perm
      (cur.ids ++ List.range' v.nextId created))
    (hkids : ∀ n ∈ Node.nodesList cur.childNodes,
      n ∈ Node.nodesList new.childNodes ∨ n ∈ Node.nodesList removed)
    (hnot : ∀ n ∈ refs, cur.id ∉ n.ids) :
    (v.replaceNode cur.id new removed created).Holds refs :=
  ⟨wellFormed_replaceNode hv.1 hcur hperm,
    fun n hn => mem_store_replaceNode hv.1 hcur hkids (hv.2 n hn) (hnot n hn)⟩

theorem holds_setTextContent {v : View} {refs : List Node} (hv : v.Holds refs) (ref : Nat)
    (s : String) (hnot : ∀ n ∈ refs, ref ∉ n.ids) : (v.setTextContent ref s).Holds refs := by
  unfold setTextContent
  cases hget : v.getNode ref with
  | none => exact hv
  | some cur =>
    obtain ⟨hcur, hid⟩ := mem_of_getNode hget
    cases cur with
    | element i t a cs =>
      simp only [Node.id] at hid
      subst hid
      by_cases hs : s = ""
      · simp only [hs, if_true]
        refine holds_replaceNode hv (Node.element i t a cs) hcur ?_ ?_ hnot
        · simp [Node.ids, Node.idsList]
        · intro n hn
          exact Or.inr hn
      · simp only [hs, if_false]
        refine holds_replaceNode hv (Node.element i t a cs) hcur ?_ ?_ hnot
        · simp only [Node.ids, Node.idsList, List.range'_one, List.append_nil,
            List.cons_append, List.nil_append]
          refine List.Perm.cons i ?_
          exact @List.perm_append_comm _ [v.nextId] (Node.idsList cs)
        · intro n hn
          exact Or.inr hn
    | text i d => exact hv
    | comment i d => exact hv

theorem holds_setAttribute {v : View} {refs : List Node} (hv : v.Holds refs) (ref : Nat)
    (name value : String) (hnot : ∀ n ∈ refs, ref ∉ n.ids) :
    (v.setAttribute ref name value).Holds refs := by
  unfold setAttribute
  cases hget : v.getNode ref with
  | none => exact hv
  | some cur =>
    obtain ⟨hcur, hid⟩ := mem_of_getNode hget
    cases cur with
    | element i t a cs =>
      simp only [Node.id] at hid
      subst hid
      refine holds_replaceNode hv (Node.element i t a cs) hcur ?_ ?_ hnot
      · simp [Node.ids, Node.idsList]
      · intro n hn
        exact Or.inl hn
    | text i d => exact hv
    | comment i d => exact hv

theorem holds_setAttributes {refs : List Node} (ref : Nat)
    (hnot : ∀ n ∈ refs, ref ∉ n.ids) :
    ∀ (attrs : List (String × String)) (v : View), v.Holds refs →
      (attrs.foldl (fun w attr => w.setAttribute ref attr.1 attr.2) v).Holds refs
  | [], _, hv => hv
  | a :: rest, v, hv => by
    simp only [List.foldl_cons]
    exact holds_setAttributes ref hnot rest _ (holds_setAttribute hv ref a.1 a.2 hnot)

theorem holds_clear {v : View} {refs : List Node} (hv : v.Holds refs) : (v._clear).Holds refs := by
  obtain ⟨⟨hnd, hlt⟩, hmem⟩ := hv
  simp only [Node.idsList_append] at hnd hlt
  simp only [Node.nodesList_append, List.mem_append] at hmem
  refine ⟨⟨?_, ?_⟩, ?_⟩
  · simp only [_clear, List.nil_append, Node.idsList_append]
    exact (List.perm_append_comm.nodup_iff).1 hnd
  · intro i hi
    simp only [_clear, List.nil_append, Node.idsList_append, List.mem_append] at hi
    exact hlt i (List.mem_append.2 hi.symm)
  · intro n hn
    simp only [_clear, List.nil_append, Node.nodesList_append, List.mem_append]
    exact (hmem n hn).symm

theorem holds_insertAdjacentHTML {v : View} {refs : List Node} (hv : v.Holds refs) (h : Host)
    (markup : String) : (v.insertAdjacentHTML h markup).Holds refs := by
  obtain ⟨⟨hnd, hlt⟩, hmem⟩ := hv
  refine ⟨⟨?_, ?_⟩, ?_⟩
  · simp only [insertAdjacentHTML, List.append_assoc]
    rw [Node.idsList_append, Node.idsList_allocList, List.nodup_append]
    refine ⟨List.nodup_range' _ _, hnd, ?_⟩
    intro x hx hy
    have := hlt x hy
    rw [List.mem_range'_1] at hx
    omega
  · intro i hi
    simp only [insertAdjacentHTML, List.append_assoc] at hi ⊢
    rw [Node.idsList_append, Node.idsList_allocList, List.mem_append, List.mem_range'_1] at hi
    rcases hi with hi | hi
    · omega
    · have := hlt i hi
      omega
  · intro n hn
    simp only [insertAdjacentHTML, List.append_assoc]
    rw [Node.nodesList_append, List.mem_append]
    exact Or.inr (hmem n hn)

/-! ## One round of the loop of `update` -/

/-- A round either leaves the state as it was or ends by clearing the mount point and
inserting the new markup. -/
theorem updateElement_cases (h : Host) (newMarkup : String) (currElements : List Nat)
    (v : View) (newEl : Node) (i : Nat) :
    (updateElement h newMarkup currElements v newEl i).1 = v ∨
      ∃ w : View, updateElement h newMarkup currElements v newEl i =
        ((w._clear).insertAdjacentHTML h newMarkup, .normal ()) := by
  unfold updateElement
  split
  · exact Or.inl rfl
  · split
    · exact Or.inl rfl
    · split
      · split
        · exact Or.inl rfl
        · split
          · exact Or.inr ⟨_, rfl⟩
          · exact Or.inl rfl
      · exact Or.inl rfl

/-- A round on a pair that is equal, or whose mounted element starts with blank text,
changes nothing. -/
theorem updateElement_skip (h : Host) (newMarkup : String) {currElements : List Nat}
    {v : View} {newEl cur : Node} {i : Nat} (hget : currElements[i]? = some cur.id)
    (hnode : v.getNode cur.id = some cur)
    (hskip : Node.isEqualNode cur newEl = true ∨
      firstChildNodeValueTrim cur = .normal (some "")) :
    updateElement h newMarkup currElements v newEl i = (v, .normal ()) := by
  unfold updateElement
  simp only [hget, hnode]
  cases heq : Node.isEqualNode cur newEl with
  | true => simp
  | false =>
    rw [heq] at hskip
    have hfirst := hskip.resolve_left (by simp)
    simp [hfirst]

/-- A round on a pair that differs, and whose mounted element has no first child or starts
with text that is not blank, clears the mount point and inserts the new markup. -/
theorem updateElement_patch (h : Host) (newMarkup : String) {currElements : List Nat}
    {v : View} (newEl : Node) {cur : Node} {i : Nat} (hget : currElements[i]? = some cur.id)
    (hnode : v.getNode cur.id = some cur) (hdiff : Node.isEqualNode cur newEl = false)
    {trimmed : Option String} (hfirst : firstChildNodeValueTrim cur = .normal trimmed)
    (hne : trimmed ≠ some "") :
    ∃ w : View, updateElement h newMarkup currElements v newEl i =
      ((w._clear).insertAdjacentHTML h newMarkup, .normal ()) := by
  unfold updateElement
  simp only [hget, hnode, hdiff, hfirst, Bool.not_false, if_true, bne_iff_ne, ne_eq, hne,
    not_false_eq_true]
  exact ⟨_, rfl⟩

/-- A round on a pair that is equal, or whose mounted element does not start with an
element, completes and keeps the references that do not contain the mounted element. -/
theorem updateElement_holds (h : Host) (newMarkup : String) {currElements : List Nat}
    {v : View} (newEl : Node) {cur : Node} {i : Nat} {refs : List Node}
    (hget : currElements[i]? = some cur.id) (hnode : v.getNode cur.id = some cur)
    (hok : Node.isEqualNode cur newEl = true ∨ ∀ e, firstChildNodeValueTrim cur ≠ .throw e)
    (hv : v.Holds refs) (hnot : ∀ n ∈ refs, cur.id ∉ n.ids) :
    ∃ w : View, updateElement h newMarkup currElements v newEl i = (w, .normal ()) ∧
      w.Holds refs := by
  unfold updateElement
  simp only [hget, hnode]
  cases heq : Node.isEqualNode cur newEl with
  | true => exact ⟨v, by simp, hv⟩
  | false =>
    rw [heq] at hok
    have hnothrow := hok.resolve_left (by simp)
    cases hfirst : firstChildNodeValueTrim cur with
    | throw e => exact absurd hfirst (hnothrow e)
    | normal trimmed =>
      by_cases ht : trimmed = some ""
      · exact ⟨v, by simp [ht], hv⟩
      · simp only [Bool.not_false, if_true, bne_iff_ne, ne_eq, ht, not_false_eq_true]
        refine ⟨_, rfl, ?_⟩
        apply holds_insertAdjacentHTML
        apply holds_clear
        have h1 := holds_setTextContent hv cur.id (Node.textContent newEl) hnot
        split
        · exact holds_setAttributes cur.id hnot _ _ h1
        · exact h1

/-! ## The loop of `update` -/

/-- The mount point after the loop holds what it held before, or the new markup. -/
theorem forEachNewElement_mount (h : Host) (newMarkup : String) (currElements : List Nat) :
    ∀ (newElements : List Node) (i : Nat) (v : View),
      (forEachNewElement h newMarkup currElements newElements i v).1._parentElement =
          v._parentElement ∨
        ∃ k, (forEachNewElement h newMarkup currElements newElements i v).1._parentElement =
          HtmlNode.allocList k (h.parseHTML newMarkup)
  | [], _, v => Or.inl rfl
  | newEl :: rest, i, v => by
    unfold forEachNewElement
    rcases updateElement_cases h newMarkup currElements v newEl i with h1 | ⟨w, hw⟩
    · cases hres : updateElement h newMarkup currElements v newEl i with
      | mk v1 c =>
        rw [hres] at h1
        simp only at h1
        subst h1
        cases c with
        | normal _ => exact forEachNewElement_mount h newMarkup currElements rest (i + 1) v1
        | throw e => exact Or.inl rfl
    · rw [hw]
      simp only
      right
      rcases forEachNewElement_mount h newMarkup currElements rest (i + 1)
        ((w._clear).insertAdjacentHTML h newMarkup) with h2 | ⟨k, h2⟩
      · exact ⟨w._clear.nextId, by rw [h2]; simp [insertAdjacentHTML, _clear]⟩
      · exact ⟨k, h2⟩

/-- The loop changes nothing when every pair is equal or has a mounted element that starts
with blank text. -/
theorem forEachNewElement_skip (h : Host) (newMarkup : String) (cur : List Node) (v : View)
    (hnode : ∀ c ∈ cur, v.getNode c.id = some c) :
    ∀ (newElements : List Node) (i : Nat),
      newElements.length + i ≤ cur.length →
      (∀ k c n, cur[i + k]? = some c → newElements[k]? = some n →
        Node.isEqualNode c n = true ∨ firstChildNodeValueTrim c = .normal (some "")) →
      forEachNewElement h newMarkup (cur.map Node.id) newElements i v = (v, .normal ())
  | [], _, _, _ => rfl
  | n :: rest, i, hlen, hskip => by
    simp only [List.length_cons] at hlen
    have hi : i < cur.length := by omega
    have hc : cur[i]? = some cur[i] := List.getElem?_eq_getElem hi
    have hget : (cur.map Node.id)[i]? = some (cur[i]).id := by simp [hc]
    have hstep := updateElement_skip h newMarkup hget (hnode _ (List.getElem_mem hi))
      (hskip 0 cur[i] n (by simp [hc]) (by simp))
    unfold forEachNewElement
    rw [hstep]
    simp only
    refine forEachNewElement_skip h newMarkup cur v hnode rest (i + 1) (by omega) ?_
    intro k c m hck hm
    refine hskip (k + 1) c m ?_ (by simpa using hm)
    have e : i + (k + 1) = i + 1 + k := by omega
    rw [e]
    exact hck

/-- The loop ends with the new markup mounted when the first pair that is not skipped is
one that is patched. -/
theorem forEachNewElement_first_patch (h : Host) (newMarkup : String) (cur : List Node)
    (v : View) (hnode : ∀ c ∈ cur, v.getNode c.id = some c) :
    ∀ (j : Nat) (newElements : List Node) (i : Nat) (c n : Node) (trimmed : Option String),
      (∀ k c n, k < j → cur[i + k]? = some c → newElements[k]? = some n →
        Node.isEqualNode c n = true ∨ firstChildNodeValueTrim c = .normal (some "")) →
      cur[i + j]? = some c → newElements[j]? = some n →
      Node.isEqualNode c n = false → firstChildNodeValueTrim c = .normal trimmed →
      trimmed ≠ some "" →
      ∃ k, (forEachNewElement h newMarkup (cur.map Node.id) newElements i v).1._parentElement =
        HtmlNode.allocList k (h.parseHTML newMarkup)
  | 0, [], _, _, _, _, _, _, hn, _, _, _ => by simp at hn
  | 0, m :: rest, i, c, n, trimmed, _, hc, hn, hdiff, hfirst, hne => by
    simp only [List.getElem?_cons_zero, Option.some.injEq] at hn
    subst hn
    simp only [Nat.add_zero] at hc
    have hget : (cur.map Node.id)[i]? = some c.id := by simp [hc]
    obtain ⟨w, hw⟩ := updateElement_patch h newMarkup m hget
      (hnode c (List.getElem?_mem hc)) hdiff hfirst hne
    unfold forEachNewElement
    rw [hw]
    simp only
    rcases forEachNewElement_mount h newMarkup (cur.map Node.id) rest (i + 1)
      ((w._clear).insertAdjacentHTML h newMarkup) with h2 | ⟨k, h2⟩
    · exact ⟨w._clear.nextId, by rw [h2]; simp [insertAdjacentHTML, _clear]⟩
    · exact ⟨k, h2⟩
  | j + 1, [], _, _, _, _, _, _, hn, _, _, _ => by simp at hn
  | j + 1, m :: rest, i, c, n, trimmed, hskip, hc, hn, hdiff, hfirst, hne => by
    have hi : i < cur.length := by
      have := (List.getElem?_eq_some_iff.1 hc).1
      omega
    have hci : cur[i]? = some cur[i] := List.getElem?_eq_getElem hi
    have hget : (cur.map Node.id)[i]? = some (cur[i]).id := by simp [hci]
    have hstep := updateElement_skip h newMarkup hget (hnode _ (List.getElem_mem hi))
      (hskip 0 cur[i] m (by omega) (by simp [hci]) (by simp))
    unfold forEachNewElement
    rw [hstep]
    simp only
    refine forEachNewElement_first_patch h newMarkup cur v hnode j rest (i + 1) c n trimmed
      ?_ ?_ (by simpa using hn) hdiff hfirst hne
    · intro k c2 n2 hk hck hm
      refine hskip (k + 1) c2 n2 (by omega) ?_ (by simpa using hm)
      have e : i + (k + 1) = i + 1 + k := by omega
      rw [e]
      exact hck
    · have e : i + 1 + j = i + (j + 1) := by omega
      rw [e]
      exact hc

/-- The loop completes when the new elements are no more than the mounted ones and every
pair is equal or has a mounted element that does not start with an element. -/
theorem forEachNewElement_completes (h : Host) (newMarkup : String) (cur : List Node)
    (hpair : cur.Pairwise (fun a b => a.id ∉ b.ids)) :
    ∀ (newElements : List Node) (i : Nat) (v : View),
      v.Holds (cur.drop i) →
      newElements.length + i ≤ cur.length →
      (∀ k c n, cur[i + k]? = some c → newElements[k]? = some n →
        Node.isEqualNode c n = true ∨ ∀ e, firstChildNodeValueTrim c ≠ .throw e) →
      (forEachNewElement h newMarkup (cur.map Node.id) newElements i v).2 = .normal ()
  | [], _, _, _, _, _ => rfl
  | n :: rest, i, v, hv, hlen, hok => by
    simp only [List.length_cons] at hlen
    have hi : i < cur.length := by omega
    have hc : cur[i]? = some cur[i] := List.getElem?_eq_getElem hi
    have hget : (cur.map Node.id)[i]? = some (cur[i]).id := by simp [hc]
    have hdrop : cur.drop i = cur[i] :: cur.drop (i + 1) := List.drop_eq_getElem_cons hi
    have hnode : v.getNode (cur[i]).id = some cur[i] :=
      getNode_of_mem hv.1 (hv.2 _ (by rw [hdrop]; exact List.mem_cons_self _ _))
    have hv2 : v.Holds (cur.drop (i + 1)) :=
      ⟨hv.1, fun m hm => hv.2 m (by rw [hdrop]; exact List.mem_cons_of_mem _ hm)⟩
    have hnot : ∀ m ∈ cur.drop (i + 1), (cur[i]).id ∉ m.ids := by
      have hp : (cur.drop i).Pairwise (fun a b => a.id ∉ b.ids) :=
        List.Pairwise.sublist (List.drop_sublist i cur) hpair
      rw [hdrop, List.pairwise_cons] at hp
      exact hp.1
    obtain ⟨w, hw, hwh⟩ := updateElement_holds h newMarkup n hget hnode
      (hok 0 cur[i] n (by simp [hc]) (by simp)) hv2 hnot
    unfold forEachNewElement
    rw [hw]
    simp only
    refine forEachNewElement_completes h newMarkup cur hpair rest (i + 1) w hwh (by omega) ?_
    intro k c m hck hm
    refine hok (k + 1) c m ?_ (by simpa using hm)
    have e : i + (k + 1) = i + 1 + k := by omega
    rw [e]
    exact hck

/-! ## Pairs of elements and rounds -/

theorem roundOf_skip {c n : Node} (h : roundOf c n = .skip) :
    Node.isEqualNode c n = true ∨ firstChildNodeValueTrim c = .normal (some "") := by
  unfold roundOf at h
  cases heq : Node.isEqualNode c n with
  | true => exact Or.inl rfl
  | false =>
    right
    rw [heq] at h
    cases hfirst : firstChildNodeValueTrim c with
    | throw e => simp [hfirst] at h
    | normal trimmed =>
      by_cases ht : trimmed = some ""
      · rw [ht]
      · simp [hfirst, ht] at h

theorem roundOf_patch {c n : Node} (h : roundOf c n = .patch) :
    Node.isEqualNode c n = false ∧
      ∃ trimmed, firstChildNodeValueTrim c = .normal trimmed ∧ trimmed ≠ some "" := by
  unfold roundOf at h
  cases heq : Node.isEqualNode c n with
  | true => simp [heq] at h
  | false =>
    refine ⟨rfl, ?_⟩
    rw [heq] at h
    cases hfirst : firstChildNodeValueTrim c with
    | throw e => simp [hfirst] at h
    | normal trimmed =>
      by_cases ht : trimmed = some ""
      · simp [hfirst, ht] at h
      · exact ⟨trimmed, rfl, ht⟩

theorem roundOf_not_throw {c n : Node} (h : roundOf c n ≠ .throw) :
    Node.isEqualNode c n = true ∨ ∀ e, firstChildNodeValueTrim c ≠ .throw e := by
  unfold roundOf at h
  cases heq : Node.isEqualNode c n with
  | true => exact Or.inl rfl
  | false =>
    right
    intro e he
    simp [heq, he] at h

/-- The first element of a list that satisfies a test, with its position. -/
theorem find_position {α : Type} (p : α → Bool) :
    ∀ (l : List α) (b : α), l.find? p = some b →
      ∃ j : Nat, l[j]? = some b ∧ ∀ (k : Nat) (a : α), k < j → l[k]? = some a → p a = false
  | [], _, h => by simp at h
  | x :: xs, b, h => by
    cases hp : p x with
    | true =>
      rw [List.find?_cons_of_pos _ hp] at h
      refine ⟨0, by simpa using h, ?_⟩
      intro k a hk
      omega
    | false =>
      rw [List.find?_cons_of_neg _ (by simp [hp])] at h
      obtain ⟨j, hj, hbefore⟩ := find_position p xs b h
      refine ⟨j + 1, by simpa using hj, ?_⟩
      intro k a hk hka
      cases k with
      | zero =>
        simp only [List.getElem?_cons_zero, Option.some.injEq] at hka
        rw [← hka]
        exact hp
      | succ k => exact hbefore k a (by omega) (by simpa using hka)

/-! ## `render` and `update` on a valid entity -/

theorem render_valid (h : Host) (v : View) (data : JsValue) (markup : String) (r : Bool)
    (hdata : data.isMissing = false) (hgen : v._generateMarkup data = some markup) :
    v.render h data r =
      if r then
        (({ v with _data := data }._clear).insertAdjacentHTML h markup, .normal none)
      else ({ v with _data := data }, .normal (some markup)) := by
  unfold render
  cases r <;> simp [hdata, hgen]

theorem update_valid (h : Host) (v : View) (data : JsValue) (markup : String)
    (hdata : data.isMissing = false) (hgen : v._generateMarkup data = some markup) :
    v.update h data =
      forEachNewElement h markup (v.currElements.map Node.id) (v.newElements h markup) 0
        { v with _data := data, nextId := v.nextId + HtmlNode.sizeList (h.parseHTML markup) } := by
  unfold update
  simp [hdata, hgen, currElements, newElements, createContextualFragment]

theorem mem_nodesList_of_mem_querySelectorAll {f : List Node} {c : Node}
    (hc : c ∈ querySelectorAll f) : c ∈ Node.nodesList f :=
  (List.mem_filter.1 hc).1

/-- The mount point is searched first: a mounted node is found by its identity when the
mounted identities are all different. -/
theorem getNode_of_mem_mount {v : View} (hnd : (Node.idsList v._parentElement).Nodup)
    {n : Node} (hn : n ∈ Node.nodesList v._parentElement) : v.getNode n.id = some n := by
  unfold getNode
  rw [Node.nodesList_append, List.find?_append, Node.find_of_mem hnd hn]
  rfl

/-! ## Equal forests have equal elements -/

mutual
theorem forall₂_elements_of_isEqualNode :
    ∀ a b : Node, Node.isEqualNode a b = true →
      List.Forall₂ (fun c n => Node.isEqualNode c n = true)
        (a.nodes.filter Node.isElement) (b.nodes.filter Node.isElement)
  | .element i t a cs, .element i2 t2 a2 cs2, h => by
    have hcs : Node.isEqualNodeList cs cs2 = true := by
      simp only [Node.isEqualNode, Bool.and_eq_true] at h
      exact h.2
    simp only [Node.nodes, Node.isElement, List.filter_cons_of_pos]
    exact List.Forall₂.cons h (forall₂_elements_of_isEqualNodeList cs cs2 hcs)
  | .text _ _, .text _ _, _ => by simp [Node.nodes, Node.isElement]
  | .comment _ _, .comment _ _, _ => by simp [Node.nodes, Node.isElement]
  | .element _ _ _ _, .text _ _, h => by simp [Node.isEqualNode] at h
  | .element _ _ _ _, .comment _ _, h => by simp [Node.isEqualNode] at h
  | .text _ _, .element _ _ _ _, h => by simp [Node.isEqualNode] at h
  | .text _ _, .comment _ _, h => by simp [Node.isEqualNode] at h
  | .comment _ _, .element _ _ _ _, h => by simp [Node.isEqualNode] at h
  | .comment _ _, .text _ _, h => by simp [Node.isEqualNode] at h
theorem forall₂_elements_of_isEqualNodeList :
    ∀ f g : List Node, Node.isEqualNodeList f g = true →
      List.Forall₂ (fun c n => Node.isEqualNode c n = true)
        (querySelectorAll f) (querySelectorAll g)
  | [], [], _ => by simp [querySelectorAll, Node.nodesList]
  | [], _ :: _, h => by simp [Node.isEqualNodeList] at h
  | _ :: _, [], h => by simp [Node.isEqualNodeList] at h
  | a :: f, b :: g, h => by
    simp only [Node.isEqualNodeList, Bool.and_eq_true] at h
    simp only [querySelectorAll, Node.nodesList, List.filter_append]
    exact List.rel_append (forall₂_elements_of_isEqualNode a b h.1)
      (forall₂_elements_of_isEqualNodeList f g h.2)
end

theorem forall₂_getElem {α β : Type} {R : α → β → Prop} :
    ∀ {l₁ : List α} {l₂ : List β}, List.Forall₂ R l₁ l₂ →
      ∀ (k : Nat) (a : α) (b : β), l₁[k]? = some a → l₂[k]? = some b → R a b
  | _, _, .nil, k, a, b, h1, _ => by simp at h1
  | _, _, .cons hab htl, k, a, b, h1, h2 => by
    cases k with
    | zero =>
      simp only [List.getElem?_cons_zero, Option.some.injEq] at h1 h2
      subst h1 h2
      exact hab
    | succ k => exact forall₂_getElem htl k a b (by simpa using h1) (by simpa using h2)

/-- Whatever the entity, `update` leaves in the mount point the nodes that were there, or
the markup of the entity freshly inserted; it throws or completes with nothing in between. -/
theorem update_mount (h : Host) (v : View) (data : JsValue) (markup : String)
    (hdata : data.isMissing = false) (hgen : v._generateMarkup data = some markup) :
    (v.update h data).1._parentElement = v._parentElement ∨
      Node.stripList (v.update h data).1._parentElement = h.parseHTML markup := by
  rw [update_valid h v data markup hdata hgen]
  rcases forEachNewElement_mount h markup (v.currElements.map Node.id) (v.newElements h markup)
    0 { v with _data := data, nextId := v.nextId + HtmlNode.sizeList (h.parseHTML markup) }
    with h1 | ⟨k, h1⟩
  · exact Or.inl h1
  · right
    rw [h1, Node.stripList_allocList]

end View

/-! ## The claims about `View.render` and `View.update` -/

open Example

/-- C1, the code at a failing input: search results with one entry are rendered and then
updated with the same entry marked active. The two markups have the same elements at
every index and differ in the class attribute of the link only. The link starts with
blank text, so no round patches anything: `update` completes and the mount point still
holds the markup of the first entity, which is not the markup `render` mounts for the
second one. -/
theorem update_leaves_active_class_stale :
    ((View.render host (emptyView listMarkup) oneResult true).1.currElements).map Node.strip
      = [.element "li" [("class", "preview")] [.text "\n",
          .element "a" [("class", "preview__link "), ("href", "#1")] [.text "\n",
            .element "h4" [("class", "preview__title")] [.text "Soup"], .text "\n"],
          .text "\n"],
         .element "a" [("class", "preview__link "), ("href", "#1")] [.text "\n",
            .element "h4" [("class", "preview__title")] [.text "Soup"], .text "\n"],
         .element "h4" [("class", "preview__title")] [.text "Soup"]] ∧
    ((View.render host (emptyView listMarkup) oneResultActive true).1.currElements).map
        Node.strip
      = [.element "li" [("class", "preview")] [.text "\n",
          .element "a" [("class", "preview__link preview__link--active"), ("href", "#1")]
            [.text "\n", .element "h4" [("class", "preview__title")] [.text "Soup"],
              .text "\n"],
          .text "\n"],
         .element "a" [("class", "preview__link preview__link--active"), ("href", "#1")]
            [.text "\n", .element "h4" [("class", "preview__title")] [.text "Soup"],
              .text "\n"],
         .element "h4" [("class", "preview__title")] [.text "Soup"]] ∧
    ((View.render host (emptyView listMarkup) oneResult true).1.update host
        oneResultActive).2 = .normal () ∧
    Node.stripList ((View.render host (emptyView listMarkup) oneResult true).1.update host
        oneResultActive).1._parentElement
      = Node.stripList (View.render host (emptyView listMarkup) oneResult true).1._parentElement ∧
    Node.stripList ((View.render host (emptyView listMarkup) oneResult true).1.update host
        oneResultActive).1._parentElement
      ≠ Node.stripList
          (View.render host (emptyView listMarkup) oneResultActive true).1._parentElement := by
  set_option maxRecDepth 100000 in decide

/-- C2, counterexample: bookmarks with two entries are rendered and then updated with the
first entry alone. The new markup has three elements and the mounted content six; the
three pairs are equal, so `update` does nothing and the mount point keeps both entries,
which is not what `render` mounts for the one entry. -/
theorem update_keeps_removed_entry :
    ((View.render host (emptyView listMarkup) twoBookmarks true).1.currElements).length = 6 ∧
    ((View.render host (emptyView listMarkup) twoBookmarks true).1.newElements host
        (String.join ([item "1" "Soup" ""].map previewMarkup))).length = 3 ∧
    Node.stripList ((View.render host (emptyView listMarkup) twoBookmarks true).1.update host
        oneResult).1._parentElement
      ≠ Node.stripList (View.render host (emptyView listMarkup) oneResult true).1._parentElement := by
  set_option maxRecDepth 100000 in decide

/-- C2 as amended: `update` has no check of lengths and no fallback. Whatever the two
lengths, when the first pair of mounted and new element that is not skipped is one that
is patched, `update` after `render` leaves the mount point with the content `render`
gives for the second entity. -/
theorem update_rerenders_when_first_round_patches (h : Host) (v : View) (e1 e2 : JsValue)
    (m1 m2 : String)
    (he1 : e1.isMissing = false) (hm1 : v._generateMarkup e1 = some m1)
    (he2 : e2.isMissing = false) (hm2 : v._generateMarkup e2 = some m2)
    (_hlen : ((v.render h e1 true).1.currElements).length ≠
      ((v.render h e1 true).1.newElements h m2).length)
    (hfirst : ((((v.render h e1 true).1.currElements).zip
        ((v.render h e1 true).1.newElements h m2)).map
          (fun p => View.roundOf p.1 p.2)).find? (fun r => r != View.Round.skip)
        = some View.Round.patch) :
    Node.stripList ((v.render h e1 true).1.update h e2).1._parentElement =
      Node.stripList (v.render h e2 true).1._parentElement := by
  have hr1 := View.render_valid h v e1 m1 true he1 hm1
  have hr2 := View.render_valid h v e2 m2 true he2 hm2
  simp only [if_true] at hr1 hr2
  rw [hr1] at hfirst ⊢
  rw [hr2]
  simp only at hfirst ⊢
  generalize hw : View.insertAdjacentHTML h ({ v with _data := e1 }._clear) m1 = w at hfirst ⊢
  have hgen : w._generateMarkup e2 = some m2 := by
    rw [← hw]
    exact hm2
  have hmount : w._parentElement = HtmlNode.allocList v.nextId (h.parseHTML m1) := by
    rw [← hw]
    simp [View.insertAdjacentHTML, View._clear]
  rw [View.update_valid h w e2 m2 he2 hgen]
  obtain ⟨j, hj, hbefore⟩ := View.find_position _ _ _ hfirst
  rw [List.getElem?_map] at hj
  obtain ⟨⟨c, n⟩, hcn, hround⟩ := Option.map_eq_some'.1 hj
  obtain ⟨hc, hn⟩ := List.getElem?_zip_eq_some.1 hcn
  obtain ⟨hdiff, trimmed, htrim, hne⟩ := View.roundOf_patch hround
  have hnd : (Node.idsList w._parentElement).Nodup := by
    rw [hmount, Node.idsList_allocList]
    exact List.nodup_range' _ _
  have hnode : ∀ c ∈ w.currElements,
      View.getNode
        { w with _data := e2, nextId := w.nextId + HtmlNode.sizeList (h.parseHTML m2) }
        c.id = some c :=
    fun c hcmem => View.getNode_of_mem_mount hnd
      (View.mem_nodesList_of_mem_querySelectorAll hcmem)
  obtain ⟨k, hk⟩ := View.forEachNewElement_first_patch h m2 w.currElements _ hnode
    j (w.newElements h m2) 0 c n trimmed
    (by
      intro k c2 n2 hkj hc2 hn2
      rw [Nat.zero_add] at hc2
      apply View.roundOf_skip
      have hz : (w.currElements.zip (w.newElements h m2))[k]? = some (c2, n2) :=
        List.getElem?_zip_eq_some.2 ⟨hc2, hn2⟩
      have := hbefore k (View.roundOf c2 n2) hkj (by rw [List.getElem?_map, hz]; rfl)
      simpa using this)
    (by rw [Nat.zero_add]; exact hc) hn hdiff htrim hne
  rw [hk, Node.stripList_allocList]
  simp [View.insertAdjacentHTML, View._clear, Node.stripList_allocList]

/-- C2 as amended, at a concrete input: two bookmarks are rendered and the view is updated
with one bookmark of another title. The first two pairs are skipped and the third, the
titles, is patched. -/
theorem update_rerenders_when_first_round_patches_witness :
    ((View.render host (emptyView listMarkup) twoBookmarks true).1.currElements).length ≠
      ((View.render host (emptyView listMarkup) twoBookmarks true).1.newElements host
        (String.join ([item "1" "Broth" ""].map previewMarkup))).length ∧
    ((((View.render host (emptyView listMarkup) twoBookmarks true).1.currElements).zip
        ((View.render host (emptyView listMarkup) twoBookmarks true).1.newElements host
          (String.join ([item "1" "Broth" ""].map previewMarkup)))).map
          (fun p => View.roundOf p.1 p.2)).find? (fun r => r != View.Round.skip)
        = some View.Round.patch ∧
    Node.stripList ((View.render host (emptyView listMarkup) twoBookmarks true).1.update host
        otherBookmark).1._parentElement =
      Node.stripList
        (View.render host (emptyView listMarkup) otherBookmark true).1._parentElement :=
  ⟨by set_option maxRecDepth 100000 in decide,
   by set_option maxRecDepth 100000 in decide,
   update_rerenders_when_first_round_patches host (emptyView listMarkup) twoBookmarks
    otherBookmark (String.join ([item "1" "Soup" "", item "2" "Stew" ""].map previewMarkup))
    (String.join ([item "1" "Broth" ""].map previewMarkup)) (by decide) rfl (by decide) rfl
    (by set_option maxRecDepth 100000 in decide)
    (by set_option maxRecDepth 100000 in decide)⟩

/-- C3, counterexample: search results with one entry are rendered and then updated with
two entries. The new markup has six elements and the mounted content three: the fourth
round reads `currElements[3]`, which is `undefined`, and `update` throws. -/
theorem update_throws_on_added_entry :
    ((View.render host (emptyView listMarkup) oneResult true).1.update host twoBookmarks).2
      = .throw "TypeError: Cannot read properties of undefined (reading 'isEqualNode')" := by
  set_option maxRecDepth 100000 in decide

/-- The other way `update` throws: a mounted element that differs from the new element and
has an element as first child. The optional chaining of `currEl.firstChild?.nodeValue.trim()`
guards against a missing first child only, and `nodeValue` of an element is `null`. -/
theorem update_throws_on_element_first_child :
    ((View.render host (emptyView boxMarkup) (recipe "Soup" "Ann") true).1.update host
        (recipe "Stew" "Ann")).2
      = .throw "TypeError: Cannot read properties of null (reading 'trim')" := by
  set_option maxRecDepth 100000 in decide

/-- C3 as amended: `update` after `render` completes without throwing when the new markup
has no more elements than the mounted content and no round throws, that is, no mounted
element that differs from the new element of its index has an element as first child. -/
theorem update_completes_when_no_round_throws (h : Host) (v : View) (e1 e2 : JsValue)
    (m1 m2 : String) (hwf : v.WellFormed)
    (he1 : e1.isMissing = false) (hm1 : v._generateMarkup e1 = some m1)
    (he2 : e2.isMissing = false) (hm2 : v._generateMarkup e2 = some m2)
    (hlen : ((v.render h e1 true).1.newElements h m2).length ≤
      ((v.render h e1 true).1.currElements).length)
    (hok : ∀ p ∈ ((v.render h e1 true).1.currElements).zip
        ((v.render h e1 true).1.newElements h m2),
      View.roundOf p.1 p.2 ≠ View.Round.throw) :
    ((v.render h e1 true).1.update h e2).2 = .normal () := by
  have hr1 := View.render_valid h v e1 m1 true he1 hm1
  simp only [if_true] at hr1
  rw [hr1] at hlen hok ⊢
  simp only at hlen hok ⊢
  have hv0 : View.Holds { v with _data := e1 } [] := ⟨hwf, by simp⟩
  have hw0 := View.holds_insertAdjacentHTML (View.holds_clear hv0) h m1
  generalize hw : View.insertAdjacentHTML h ({ v with _data := e1 }._clear) m1 = w
    at hlen hok hw0 ⊢
  have hgen : w._generateMarkup e2 = some m2 := by
    rw [← hw]
    exact hm2
  rw [View.update_valid h w e2 m2 he2 hgen]
  have hndAll := hw0.1.1
  have hndMount : (Node.idsList w._parentElement).Nodup := by
    rw [Node.idsList_append] at hndAll
    exact List.Nodup.of_append_left hndAll
  have hpair : w.currElements.Pairwise (fun a b => a.id ∉ b.ids) :=
    List.Pairwise.filter _ (Node.pairwise_nodesList _ hndMount)
  refine View.forEachNewElement_completes h m2 w.currElements hpair (w.newElements h m2) 0 _
    ?_ (by simpa using hlen) ?_
  · refine ⟨⟨hw0.1.1, fun i hi => ?_⟩, ?_⟩
    · have := hw0.1.2 i hi
      simp only
      omega
    · intro n hn
      simp only [List.drop_zero] at hn
      simp only
      rw [Node.nodesList_append]
      exact List.mem_append_left _ (View.mem_nodesList_of_mem_querySelectorAll hn)
  · intro k c n hc hn
    rw [Nat.zero_add] at hc
    exact View.roundOf_not_throw
      (hok (c, n) (List.getElem?_mem (List.getElem?_zip_eq_some.2 ⟨hc, hn⟩)))

/-- C3 as amended, at a concrete input: the recipe Soup is rendered and the view is updated
with the recipe Stew; the title is patched and `update` completes. -/
theorem update_completes_when_no_round_throws_witness :
    (emptyView titleMarkup).WellFormed ∧
    ((View.render host (emptyView titleMarkup) (recipe "Soup" "Ann") true).1.newElements host
        ("<h1 class=\"recipe__title\">Stew</h1><p class=\"recipe__publisher\">Ann</p>")).length
      ≤ ((View.render host (emptyView titleMarkup) (recipe "Soup" "Ann") true).1.currElements).length ∧
    (∀ p ∈ ((View.render host (emptyView titleMarkup) (recipe "Soup" "Ann") true).1.currElements).zip
        ((View.render host (emptyView titleMarkup) (recipe "Soup" "Ann") true).1.newElements host
          ("<h1 class=\"recipe__title\">Stew</h1><p class=\"recipe__publisher\">Ann</p>")),
      View.roundOf p.1 p.2 ≠ View.Round.throw) ∧
    ((View.render host (emptyView titleMarkup) (recipe "Soup" "Ann") true).1.update host
        (recipe "Stew" "Ann")).2 = .normal () :=
  ⟨by decide,
   by set_option maxRecDepth 100000 in decide,
   by set_option maxRecDepth 100000 in decide,
   update_completes_when_no_round_throws host (emptyView titleMarkup) (recipe "Soup" "Ann")
    (recipe "Stew" "Ann")
    "<h1 class=\"recipe__title\">Soup</h1><p class=\"recipe__publisher\">Ann</p>"
    "<h1 class=\"recipe__title\">Stew</h1><p class=\"recipe__publisher\">Ann</p>"
    (by decide) (by decide) (by decide) (by decide) (by decide)
    (by set_option maxRecDepth 100000 in decide)
    (by set_option maxRecDepth 100000 in decide)⟩

/-- C4: when the markup generated for a valid entity is structurally identical to what the
mount point holds (the children of the fragment are equal, in the sense of `isEqualNode`,
to the children of the mount element), `update` completes and leaves the mount point
exactly as it was: the same nodes, and none has left the document. -/
theorem update_identical_markup_noop (h : Host) (v : View) (data : JsValue) (markup : String)
    (hwf : v.WellFormed) (hdata : data.isMissing = false)
    (hgen : v._generateMarkup data = some markup)
    (hsame : Node.isEqualNodeList v._parentElement (v.createContextualFragment h markup)
      = true) :
    (v.update h data).2 = .normal () ∧
      (v.update h data).1._parentElement = v._parentElement ∧
      (v.update h data).1.detached = v.detached := by
  have hall := View.forall₂_elements_of_isEqualNodeList _ _ hsame
  have hndMount : (Node.idsList v._parentElement).Nodup := by
    have := hwf.1
    rw [Node.idsList_append] at this
    exact List.Nodup.of_append_left this
  have hnode : ∀ c ∈ v.currElements,
      View.getNode
        { v with _data := data, nextId := v.nextId + HtmlNode.sizeList (h.parseHTML markup) }
        c.id = some c :=
    fun c hc => View.getNode_of_mem_mount hndMount
      (View.mem_nodesList_of_mem_querySelectorAll hc)
  have hloop := View.forEachNewElement_skip h markup v.currElements _ hnode
    (v.newElements h markup) 0
    (by
      have := hall.length_eq
      simp only [View.currElements, View.newElements, Nat.add_zero]
      omega)
    (by
      intro k c n hc hn
      rw [Nat.zero_add] at hc
      exact Or.inl (View.forall₂_getElem hall k c n hc hn))
  rw [View.update_valid h v data markup hdata hgen, hloop]
  exact ⟨rfl, rfl, rfl⟩

/-- C4 at a concrete input: the view that shows the recipe Soup is updated with the same
recipe. -/
theorem update_identical_markup_noop_witness :
    soupView.WellFormed ∧
    Node.isEqualNodeList soupView._parentElement (soupView.createContextualFragment host
      "<h1 class=\"recipe__title\">Soup</h1><p class=\"recipe__publisher\">Ann</p>") = true ∧
    (soupView.update host (recipe "Soup" "Ann")).2 = .normal () ∧
      (soupView.update host (recipe "Soup" "Ann")).1._parentElement = soupView._parentElement ∧
      (soupView.update host (recipe "Soup" "Ann")).1.detached = soupView.detached :=
  ⟨by set_option maxRecDepth 100000 in decide,
   by set_option maxRecDepth 100000 in decide,
   update_identical_markup_noop host soupView (recipe "Soup" "Ann")
    "<h1 class=\"recipe__title\">Soup</h1><p class=\"recipe__publisher\">Ann</p>"
    (by set_option maxRecDepth 100000 in decide) (by decide) (by decide)
    (by set_option maxRecDepth 100000 in decide)⟩

/-- C5, the code at a failing input: two bookmarks are rendered and then updated with the
second one marked active. The two markups differ in one attribute value on one element,
the class of the second link (the element of index 4). That link starts with blank text,
and so does the list item around it, so both rounds are skipped: `update` completes and
the mounted link still carries the old value. -/
theorem update_leaves_attribute_unchanged :
    ((View.render host (emptyView listMarkup) twoBookmarks true).1.currElements.map
        Node.attributes)
      = [[("class", "preview")], [("class", "preview__link "), ("href", "#1")],
         [("class", "preview__title")],
         [("class", "preview")], [("class", "preview__link "), ("href", "#2")],
         [("class", "preview__title")]] ∧
    (((View.render host (emptyView listMarkup) twoBookmarks true).1.newElements host
        (String.join ([item "1" "Soup" "", item "2" "Stew" "preview__link--active"].map
          previewMarkup))).map Node.attributes)
      = [[("class", "preview")], [("class", "preview__link "), ("href", "#1")],
         [("class", "preview__title")],
         [("class", "preview")],
         [("class", "preview__link preview__link--active"), ("href", "#2")],
         [("class", "preview__title")]] ∧
    ((View.render host (emptyView listMarkup) twoBookmarks true).1.update host
        twoBookmarksActive).2 = .normal () ∧
    (((View.render host (emptyView listMarkup) twoBookmarks true).1.update host
        twoBookmarksActive).1.currElements.map Node.attributes)[4]?
      = some [("class", "preview__link "), ("href", "#2")] := by
  set_option maxRecDepth 100000 in decide

/-- C6, the code at a failing input: the view shows the recipe Soup by Ann, in the elements
of identities 0 and 2, and is updated with the recipe Stew by Ann. The round of the title
sets the text of element 0 and then clears the mount point and inserts the new markup:
afterwards the mount point holds the new elements 9 and 11, the paragraph of the publisher,
which did not change, is another object than before, and the elements mounted before are
among the nodes that left the document. -/
theorem update_replaces_mounted_elements :
    soupView.currElements.map Node.id = [0, 2] ∧
    (soupView.update host (recipe "Stew" "Ann")).2 = .normal () ∧
    (soupView.update host (recipe "Stew" "Ann")).1.currElements.map Node.id = [9, 11] ∧
    (soupView.currElements.map Node.strip)[1]? =
      ((soupView.update host (recipe "Stew" "Ann")).1.currElements.map Node.strip)[1]? ∧
    (∀ i ∈ Node.idsList soupView._parentElement,
      i ∉ Node.idsList (soupView.update host (recipe "Stew" "Ann")).1._parentElement) ∧
    Node.stripList (soupView.update host (recipe "Stew" "Ann")).1.detached
      = [.text "Soup", .element "h1" [("class", "recipe__title")] [.text "Stew"],
         .element "p" [("class", "recipe__publisher")] [.text "Ann"]] := by
  set_option maxRecDepth 100000 in decide

/-- C7: for every entity that passes the guard of `render` (it is truthy and, if an array,
not empty) and for which the producer of the view returns a markup, `render` with the flag
`true` completes, leaves the mount point holding exactly that markup, whatever it held
before, and stores the entity as `_data`. -/
theorem render_mounts_markup (h : Host) (v : View) (data : JsValue) (markup : String)
    (hdata : data.isMissing = false) (hgen : v._generateMarkup data = some markup) :
    (v.render h data true).2 = .normal none ∧
      Node.stripList (v.render h data true).1._parentElement = h.parseHTML markup ∧
      (v.render h data true).1._data = data := by
  rw [View.render_valid h v data markup true hdata hgen]
  simp [View.insertAdjacentHTML, View._clear, Node.stripList_allocList]

/-- C7 at a concrete input: the view that shows the recipe Soup renders two bookmarks. -/
theorem render_mounts_markup_witness :
    (View.render host { soupView with _generateMarkup := listMarkup } twoBookmarks true).2
        = .normal none ∧
      Node.stripList (View.render host { soupView with _generateMarkup := listMarkup }
          twoBookmarks true).1._parentElement
        = host.parseHTML (String.join ([item "1" "Soup" "", item "2" "Stew" ""].map
          previewMarkup)) ∧
      (View.render host { soupView with _generateMarkup := listMarkup } twoBookmarks
          true).1._data = twoBookmarks :=
  render_mounts_markup host { soupView with _generateMarkup := listMarkup } twoBookmarks
    (String.join ([item "1" "Soup" "", item "2" "Stew" ""].map previewMarkup))
    (by decide) (by set_option maxRecDepth 100000 in decide)

/-- C8: when the entity fails the guard of `render` (it is `undefined`, `null` or another
falsy value, or an empty array), `render` completes and returns `undefined`, the mount
point holds the error markup with the error message of the view, `_data` is what it was,
and the producer plays no part: with any other producer in its place, one that throws
included, the result is the same. -/
theorem render_missing_shows_error (h : Host) (v : View) (data : JsValue) (r : Bool)
    (hdata : data.isMissing = true) :
    (v.render h data r).2 = .normal none ∧
      Node.stripList (v.render h data r).1._parentElement
        = h.parseHTML (errorMarkup h.icons (templateText v._errMessage)) ∧
      (v.render h data r).1._data = v._data ∧
      ∀ g : JsValue → Option String,
        (View.render h { v with _generateMarkup := g } data r).2 = .normal none ∧
        (View.render h { v with _generateMarkup := g } data r).1._parentElement
          = (v.render h data r).1._parentElement ∧
        (View.render h { v with _generateMarkup := g } data r).1._data = v._data := by
  simp [View.render, hdata, View.renderError, View.insertAdjacentHTML, View._clear,
    Node.stripList_allocList]

/-- C8 at a concrete input: the view that shows the recipe Soup renders an empty array. -/
theorem render_missing_shows_error_witness :
    (JsValue.array []).isMissing = true ∧
    Node.stripList (soupView.render host (.array []) true).1._parentElement
      = host.parseHTML (errorMarkup host.icons
          "No recipes found for your query! Please try again") ∧
    (soupView.render host (.array []) true).1._data = soupView._data :=
  ⟨by decide,
   (render_missing_shows_error host soupView (.array []) true (by decide)).2.1,
   (render_missing_shows_error host soupView (.array []) true (by decide)).2.2.1⟩

/-- C9: when the entity fails the guard of `update` (it is `undefined`, `null` or another
falsy value, or an empty array), `update` completes and the view is exactly what it was:
the mount point, the nodes that left the document and `_data` are unchanged, and no error
is rendered. -/
theorem update_missing_noop (h : Host) (v : View) (data : JsValue)
    (hdata : data.isMissing = true) : v.update h data = (v, .normal ()) := by
  simp [View.update, hdata]

/-- C9 at concrete inputs: the view that shows the recipe Soup is updated with `undefined`
and with an empty array. -/
theorem update_missing_noop_witness :
    soupView.update host .undefined = (soupView, .normal ()) ∧
    soupView.update host (.array []) = (soupView, .normal ()) :=
  ⟨update_missing_noop host soupView .undefined (by decide),
   update_missing_noop host soupView (.array []) (by decide)⟩

/-- C10: for every entity that passes the guard of `render` and for which the producer of
the view returns a markup, `render` with the flag `false` returns exactly that markup and
leaves the mount point, and the nodes that left the document, as they were. -/
theorem render_unmounted_returns_markup (h : Host) (v : View) (data : JsValue)
    (markup : String) (hdata : data.isMissing = false)
    (hgen : v._generateMarkup data = some markup) :
    (v.render h data false).2 = .normal (some markup) ∧
      (v.render h data false).1._parentElement = v._parentElement ∧
      (v.render h data false).1.detached = v.detached := by
  rw [View.render_valid h v data markup false hdata hgen]
  simp

/-- C10 at a concrete input: the view that shows the recipe Soup is asked for the markup of
the recipe Stew. -/
theorem render_unmounted_returns_markup_witness :
    (soupView.render host (recipe "Stew" "Ann") false).2
        = .normal (some
          "<h1 class=\"recipe__title\">Stew</h1><p class=\"recipe__publisher\">Ann</p>") ∧
      (soupView.render host (recipe "Stew" "Ann") false).1._parentElement
        = soupView._parentElement ∧
      (soupView.render host (recipe "Stew" "Ann") false).1.detached = soupView.detached :=
  render_unmounted_returns_markup host soupView (recipe "Stew" "Ann")
    "<h1 class=\"recipe__title\">Stew</h1><p class=\"recipe__publisher\">Ann</p>"
    (by decide) (by decide)

/-! ## The claims about `renderSpinner`, `renderError` and `renderMessage` -/

/-- The error block for a message without markup, with the parser of the examples: one
`div` of class `error` whose paragraph holds the message as its text. -/
theorem renderError_plain_message :
    Node.stripList (soupView.renderError host (some "No recipes found"))._parentElement
      = [.element "div" [("class", "error")] [.text "\n    ",
          .element "div" [] [.text "\n      ",
            .element "svg" [] [.text "\n        ",
              .element "use" [("href", "icons.svg#icon-alert-triangle")] [],
              .text "\n      "],
            .text "\n    "],
          .text "\n    ",
          .element "p" [] [.text "No recipes found"],
          .text "\n  "]] := by
  set_option maxRecDepth 100000 in decide

/-- C11, counterexample: the message is interpolated into the template as markup. With the
message `Not <b>found</b>` the paragraph of the error block, and of the message block,
holds the text `Not ` and an element `b`: its text is `Not found`, which is not the
message. -/
theorem renderError_paragraph_is_markup :
    ((soupView.renderError host (some "Not <b>found</b>")).currElements.filter
        (fun n => n.tagName == "p")).map Node.strip
      = [.element "p" [] [.text "Not ", .element "b" [] [.text "found"]]] ∧
    ((soupView.renderError host (some "Not <b>found</b>")).currElements.filter
        (fun n => n.tagName == "p")).map Node.textContent ≠ ["Not <b>found</b>"] ∧
    ((soupView.renderMessage host (some "Not <b>found</b>")).currElements.filter
        (fun n => n.tagName == "p")).map Node.textContent ≠ ["Not <b>found</b>"] := by
  set_option maxRecDepth 100000 in decide

/-- C11 as amended: `renderError(msg)` and `renderMessage(msg)` leave in the mount point
exactly what the parser builds from the markup of one error block, respectively one message
block, with the message interpolated into the paragraph as it is. Without an argument the
message is `_errMessage`, respectively `_message`, of the view, or the text `undefined` when
the class declares none. The nodes mounted afterwards are all new: what the mount point
held before has left the document. -/
theorem renderError_renderMessage_mount (h : Host) (v : View) (msg : String) :
    Node.stripList (v.renderError h (some msg))._parentElement
        = h.parseHTML (errorMarkup h.icons msg) ∧
      Node.stripList (v.renderError h none)._parentElement
        = h.parseHTML (errorMarkup h.icons (templateText v._errMessage)) ∧
      Node.stripList (v.renderMessage h (some msg))._parentElement
        = h.parseHTML (messageMarkup h.icons msg) ∧
      Node.stripList (v.renderMessage h none)._parentElement
        = h.parseHTML (messageMarkup h.icons (templateText v._message)) ∧
      (∀ err, ∀ i ∈ Node.idsList (v.renderError h err)._parentElement, v.nextId ≤ i) ∧
      (∀ err, ∀ i ∈ Node.idsList (v.renderMessage h err)._parentElement, v.nextId ≤ i) ∧
      (∀ err, (v.renderError h err).detached = v.detached ++ v._parentElement) ∧
      (∀ err, (v.renderMessage h err).detached = v.detached ++ v._parentElement) := by
  refine ⟨?_, ?_, ?_, ?_, ?_, ?_, ?_, ?_⟩
  · simp [View.renderError, View.insertAdjacentHTML, View._clear, Node.stripList_allocList,
      templateText]
  · simp [View.renderError, View.insertAdjacentHTML, View._clear, Node.stripList_allocList]
  · simp [View.renderMessage, View.insertAdjacentHTML, View._clear, Node.stripList_allocList,
      templateText]
  · simp [View.renderMessage, View.insertAdjacentHTML, View._clear, Node.stripList_allocList]
  · intro err i hi
    simp only [View.renderError, View.insertAdjacentHTML, View._clear, List.append_nil,
      Node.idsList_allocList, List.mem_range'_1] at hi
    exact hi.1
  · intro err i hi
    simp only [View.renderMessage, View.insertAdjacentHTML, View._clear, List.append_nil,
      Node.idsList_allocList, List.mem_range'_1] at hi
    exact hi.1
  · intro err
    simp [View.renderError, View.insertAdjacentHTML, View._clear]
  · intro err
    simp [View.renderMessage, View.insertAdjacentHTML, View._clear]

/-- C12: `renderSpinner`, `renderError` and `renderMessage` leave `_data` as it was, and the
mount point holds afterwards the markup of the spinner, respectively of the error block and
of the message block, and nothing else. -/
theorem render_status_keeps_data (h : Host) (v : View) (err : Option String) :
    (v.renderSpinner h)._data = v._data ∧
      (v.renderError h err)._data = v._data ∧
      (v.renderMessage h err)._data = v._data ∧
      Node.stripList (v.renderSpinner h)._parentElement = h.parseHTML (spinnerMarkup h.icons) ∧
      Node.stripList (v.renderError h err)._parentElement
        = h.parseHTML (errorMarkup h.icons
            (templateText (match err with | some e => some e | none => v._errMessage))) ∧
      Node.stripList (v.renderMessage h err)._parentElement
        = h.parseHTML (messageMarkup h.icons
            (templateText (match err with | some e => some e | none => v._message))) := by
  simp [View.renderSpinner, View.renderError, View.renderMessage, View.insertAdjacentHTML,
    View._clear, Node.stripList_allocList]

/-! ## The claims about the model -/

/-- A slice between two multiples of the page size is a page of the list. -/
theorem jsSlice_window {α : Type} (xs : List α) (a size : Nat) :
    jsSlice xs ((a : Int) * (size : Int)) (((a : Int) + 1) * (size : Int))
      = (xs.drop (a * size)).take size := by
  have h1 : ¬ ((a : Int) * (size : Int) < 0) := by
    have : (0 : Int) ≤ (a : Int) * (size : Int) := by positivity
    omega
  have h2 : ¬ (((a : Int) + 1) * (size : Int) < 0) := by
    have : (0 : Int) ≤ ((a : Int) + 1) * (size : Int) := by positivity
    omega
  have e1 : (a : Int) * (size : Int) = ((a * size : Nat) : Int) := by push_cast; ring
  have e2 : ((a : Int) + 1) * (size : Int) = ((a * size + size : Nat) : Int) := by
    push_cast; ring
  unfold jsSlice
  simp only [h1, h2, if_false]
  rw [e1, e2]
  generalize a * size = start
  rcases Nat.lt_or_ge start xs.length with hlt | hge
  · have hk : (min (start : Int) (xs.length : Int)).toNat = start := by omega
    have hc : (max (min ((start + size : Nat) : Int) (xs.length : Int)
        - min (start : Int) (xs.length : Int)) 0).toNat
        = min (start + size) xs.length - start := by omega
    rw [hk, hc, List.take_eq_take, List.length_drop]
    omega
  · have hk : (min (start : Int) (xs.length : Int)).toNat = xs.length := by omega
    rw [hk, List.drop_of_length_le (Nat.le_refl _), List.drop_of_length_le hge]
    simp

/-- C13: for every page `p ≥ 1`, `getSearchResultsPage(p)` returns the results from index
`(p - 1) * resultsPerPage` on, at most `resultsPerPage` of them and fewer when the list
ends earlier, in their order; it sets `state.search.page` to `p` and leaves the results,
the query, the page size and the rest of the state as they were. -/
theorem getSearchResultsPage_window (s : State) (p : Int) (hp : 1 ≤ p) :
    (Model.getSearchResultsPage s (some p)).2
        = (s.search.results.drop ((p - 1).toNat * s.search.resultsPerPage)).take
            s.search.resultsPerPage ∧
      (Model.getSearchResultsPage s (some p)).1.search.page = p ∧
      (Model.getSearchResultsPage s (some p)).1.search.results = s.search.results ∧
      (Model.getSearchResultsPage s (some p)).1.search.query = s.search.query ∧
      (Model.getSearchResultsPage s (some p)).1.search.resultsPerPage
        = s.search.resultsPerPage ∧
      (Model.getSearchResultsPage s (some p)).1.recipe = s.recipe ∧
      (Model.getSearchResultsPage s (some p)).1.bookmarks = s.bookmarks ∧
      (Model.getSearchResultsPage s (some p)).1.objects = s.objects := by
  refine ⟨?_, rfl, rfl, rfl, rfl, rfl, rfl, rfl⟩
  have hp1 : p - 1 = (((p - 1).toNat : Nat) : Int) := by omega
  have hp2 : p = (((p - 1).toNat : Nat) : Int) + 1 := by omega
  simp only [Model.getSearchResultsPage]
  rw [hp1]
  nth_rewrite 2 [hp2]
  simp only [Int.toNat_ofNat]
  exact jsSlice_window _ _ _

/-- C13 at the input of the claim: with the 25 results `r0` to `r24` and ten to a page,
page 2 is `r10` to `r19`. -/
theorem getSearchResultsPage_window_witness :
    (1 : Int) ≤ 2 ∧
    (Model.getSearchResultsPage twentyFiveResults (some 2)).2
        = (twentyFiveResults.search.results.drop ((2 - 1 : Int).toNat *
            twentyFiveResults.search.resultsPerPage)).take
            twentyFiveResults.search.resultsPerPage ∧
    (Model.getSearchResultsPage twentyFiveResults (some 2)).2
        = (List.range' 10 10).map result ∧
    (Model.getSearchResultsPage twentyFiveResults (some 2)).1.search.page = 2 :=
  ⟨by decide,
   (getSearchResultsPage_window twentyFiveResults 2 (by decide)).1,
   by set_option maxRecDepth 100000 in decide,
   (getSearchResultsPage_window twentyFiveResults 2 (by decide)).2.1⟩

/-- C14: when `state.recipe` is a recipe whose servings are not zero, `updateServings(n)`
completes; afterwards the servings are `n`, the ingredients are as many as before and in
the same order, each with its unit and description, and the quantity `q` of each has
become `(q * n) / oldServings`, a quantity `null` counting as `0` in the product. The
other properties of the recipe, the reference `state.recipe` and the bookmarks are as
they were. -/
theorem updateServings_scales (s : State) (n : ℚ) (r : Recipe) (b : Option Bool)
    (hrec : s.objects[s.recipe]? = some { fields := some r, bookmarked := b })
    (_hold : r.servings ≠ 0) :
    (Model.updateServings s n).2 = .normal () ∧
      (Model.updateServings s n).1.recipe = s.recipe ∧
      (Model.updateServings s n).1.bookmarks = s.bookmarks ∧
      ∃ r1 : Recipe,
        (Model.updateServings s n).1.objects[s.recipe]?
          = some { fields := some r1, bookmarked := b } ∧
        r1.servings = n ∧
        r1.ingredients.length = r.ingredients.length ∧
        (∀ (i : Nat) (ing : Ingredient), r.ingredients[i]? = some ing →
          ∃ ing1 : Ingredient, r1.ingredients[i]? = some ing1 ∧
            ing1.unit = ing.unit ∧ ing1.description = ing.description ∧
            (∀ q, ing.quantity = some q → ing1.quantity = some ((q * n) / r.servings)) ∧
            (ing.quantity = none → ing1.quantity = some 0)) ∧
        r1.id = r.id ∧ r1.title = r.title ∧ r1.publisher = r.publisher ∧
        r1.sourceUrl = r.sourceUrl ∧ r1.image = r.image ∧ r1.cookingTime = r.cookingTime ∧
        r1.key = r.key := by
  have hlt : s.recipe < s.objects.length := (List.getElem?_eq_some_iff.1 hrec).1
  unfold Model.updateServings
  rw [hrec]
  refine ⟨rfl, rfl, rfl, _, List.getElem?_set_self hlt, rfl, by simp, ?_,
    rfl, rfl, rfl, rfl, rfl, rfl, rfl⟩
  intro i ing hing
  refine ⟨{ ing with quantity := some ((ing.quantity.getD 0 * n) / r.servings) },
    by rw [List.getElem?_map, hing]; rfl, rfl, rfl, ?_, ?_⟩
  · intro q hq
    simp [hq]
  · intro hq
    simp [hq]

/-- C14 at a concrete input: the loaded recipe Soup, for 4 servings with 2 cups of stock and
salt without quantity, is set to 8 servings. -/
theorem updateServings_scales_witness :
    soupLoaded.objects[soupLoaded.recipe]?
        = some { fields := some soupRecipe,
                 bookmarked := none } ∧
    (Model.updateServings soupLoaded 8).2 = .normal () ∧
    (Model.updateServings soupLoaded 8).1.recipe = soupLoaded.recipe :=
  ⟨by decide,
   (updateServings_scales soupLoaded 8 soupRecipe none
      (by decide) (by decide)).1,
   (updateServings_scales soupLoaded 8 soupRecipe none
      (by decide) (by decide)).2.1⟩

/-- The loaded recipe Soup set to 8 servings: the 2 cups of stock become 4 and the salt
without quantity gets the quantity 0. -/
theorem updateServings_soup :
    (Model.updateServings soupLoaded 8).1.objects[1]?
      = some { fields := some { soupRecipe with
                 servings := 8,
                 ingredients := [{ quantity := some 4, unit := "cup", description := "stock" },
                                 { quantity := some 0, unit := "", description := "salt" }] },
               bookmarked := none } := by
  norm_num [Model.updateServings, soupLoaded, Model.loadRecipe, Model.initial,
    Model.createRecipeObject, apiSoup, soupRecipe, Model.idOf]

/-- C15, the code at a failing input: the recipe Soup is loaded and bookmarked, then loaded
again, as happens when the user comes back to it, and its bookmark is toggled once more.
The second load makes a new recipe object and marks it as bookmarked. `deleteBookmark` then
sets `bookmarked` to `false` on the object held by `state.bookmarks`, which is the object of
the first load, and removes it: no bookmark is left, and the displayed recipe is still
marked as bookmarked. -/
theorem toggle_after_reload_stays_bookmarked :
    soupBookmarked.bookmarks = [1] ∧ soupBookmarked.recipe = 1 ∧
    Model.bookmarkedOf soupBookmarked soupBookmarked.recipe = some true ∧
    soupReloaded.bookmarks = [1] ∧ soupReloaded.recipe = 2 ∧
    Model.idOf soupReloaded 1 = Model.idOf soupReloaded 2 ∧
    Model.bookmarkedOf soupReloaded soupReloaded.recipe = some true ∧
    (Model.controlToggleBookmark soupReloaded).2 = .normal () ∧
    (Model.controlToggleBookmark soupReloaded).1.bookmarks = [] ∧
    (Model.controlToggleBookmark soupReloaded).1.recipe = 2 ∧
    Model.bookmarkedOf (Model.controlToggleBookmark soupReloaded).1
      (Model.controlToggleBookmark soupReloaded).1.recipe = some true ∧
    Model.bookmarkedOf (Model.controlToggleBookmark soupReloaded).1 1 = some false := by
  decide

/-- In the same session the bookmark works: the recipe Soup is loaded, bookmarked and
unbookmarked, and the one object is marked as not bookmarked. -/
theorem toggle_twice_clears_bookmarked :
    (Model.controlToggleBookmark soupBookmarked).1.bookmarks = [] ∧
    Model.bookmarkedOf (Model.controlToggleBookmark soupBookmarked).1
      (Model.controlToggleBookmark soupBookmarked).1.recipe = some false := by
  decide

namespace Model

theorem setBookmarked_bookmarks (s : State) (ref : Nat) (value : Bool) :
    (setBookmarked s ref value).bookmarks = s.bookmarks := by
  unfold setBookmarked
  split <;> rfl

theorem setBookmarked_recipe (s : State) (ref : Nat) (value : Bool) :
    (setBookmarked s ref value).recipe = s.recipe := by
  unfold setBookmarked
  split <;> rfl

theorem setBookmarked_objects_ne (s : State) (ref other : Nat) (value : Bool)
    (hne : other ≠ ref) : (setBookmarked s ref value).objects[other]? = s.objects[other]? := by
  unfold setBookmarked
  split
  · simp [List.getElem?_set_ne (Ne.symm hne)]
  · rfl

theorem setBookmarked_fields (s : State) (ref other : Nat) (value : Bool) :
    ((setBookmarked s ref value).objects[other]?).map (fun o => o.fields)
      = (s.objects[other]?).map (fun o => o.fields) := by
  by_cases hne : other = ref
  · subst hne
    unfold setBookmarked
    split
    · next obj hobj =>
      have hlt : other < s.objects.length := (List.getElem?_eq_some_iff.1 hobj).1
      simp [List.getElem?_set_self hlt, hobj]
    · rfl
  · rw [setBookmarked_objects_ne s ref other value hne]

theorem idOf_setBookmarked (s : State) (ref other : Nat) (value : Bool) :
    idOf (setBookmarked s ref value) other = idOf s other := by
  have h := setBookmarked_fields s ref other value
  unfold idOf
  cases h1 : (setBookmarked s ref value).objects[other]? <;>
    cases h2 : s.objects[other]? <;> simp_all

theorem bookmarkedOf_setBookmarked (s : State) (ref : Nat) (value : Bool)
    (hlt : ref < s.objects.length) : bookmarkedOf (setBookmarked s ref value) ref = some value := by
  have hobj : s.objects[ref]? = some s.objects[ref] := List.getElem?_eq_getElem hlt
  unfold bookmarkedOf setBookmarked
  rw [hobj]
  simp [List.getElem?_set_self hlt]

/-- The first element of a list that satisfies a test splits the list. -/
theorem exists_first {α : Type} (p : α → Bool) :
    ∀ l : List α, (∃ x ∈ l, p x = true) →
      ∃ before x after, l = before ++ x :: after ∧ p x = true ∧ ∀ b ∈ before, p b = false
  | [], h => by
    obtain ⟨x, hx, _⟩ := h
    simp at hx
  | y :: ys, h => by
    cases hy : p y with
    | true => exact ⟨[], y, ys, rfl, hy, by simp⟩
    | false =>
      have h2 : ∃ x ∈ ys, p x = true := by
        obtain ⟨x, hx, hpx⟩ := h
        rcases List.mem_cons.1 hx with rfl | hx
        · rw [hy] at hpx
          cases hpx
        · exact ⟨x, hx, hpx⟩
      obtain ⟨before, x, after, hl, hpx, hb⟩ := exists_first p ys h2
      refine ⟨y :: before, x, after, by rw [hl]; rfl, hpx, ?_⟩
      intro b hbm
      rcases List.mem_cons.1 hbm with rfl | hbm
      · exact hy
      · exact hb b hbm

theorem jsFindIndex_append {α : Type} (p : α → Bool) (x : α) (after : List α) (hx : p x = true) :
    ∀ before : List α, (∀ b ∈ before, p b = false) →
      jsFindIndex p (before ++ x :: after) = some before.length
  | [], _ => by simp [jsFindIndex, hx]
  | y :: ys, h => by
    have hy : p y = false := h y (List.mem_cons_self _ _)
    have ih := jsFindIndex_append p x after hx ys
      (fun b hb => h b (List.mem_cons_of_mem _ hb))
    simp [jsFindIndex, hy, ih]

/-- What `deleteBookmark` does when the first bookmark with the id is known. -/
theorem deleteBookmark_of_split (s : State) (id : Option String) (before after : List Nat)
    (ref : Nat) (hsplit : s.bookmarks = before ++ ref :: after) (hid : idOf s ref = id)
    (hbefore : ∀ b ∈ before, idOf s b ≠ id) :
    deleteBookmark s id
      = (persistBookmarks { setBookmarked s ref false with bookmarks := before ++ after },
         .normal ()) := by
  have hfind : jsFindIndex (fun recipe => id == idOf s recipe) s.bookmarks
      = some before.length := by
    rw [hsplit]
    refine jsFindIndex_append _ ref after (by simp [hid]) before ?_
    intro b hb
    have := hbefore b hb
    simp only [beq_eq_false_iff_ne, ne_eq]
    exact fun h => this h.symm
  have hget : s.bookmarks.getD before.length 0 = ref := by
    rw [hsplit, List.getD_eq_getElem?_getD,
      List.getElem?_append_right (Nat.le_refl _)]
    simp
  have herase : (setBookmarked s ref false).bookmarks.eraseIdx before.length
      = before ++ after := by
    rw [setBookmarked_bookmarks, hsplit,
      List.eraseIdx_append_of_length_le (Nat.le_refl _)]
    simp
  unfold deleteBookmark
  rw [hfind]
  simp only [hget, herase]

end Model

/-- C16: `addBookmark(recipe)` makes `state.bookmarks` the former array followed by
`recipe`, so the former bookmarks are the same objects in the same order and the length
grows by one; it sets `bookmarked` to `true` on `state.recipe` and touches no other
object and no other property; and it stores the bookmarks as they are afterwards. -/
theorem addBookmark_appends (s : State) (recipe : Nat) (hrec : s.recipe < s.objects.length) :
    (Model.addBookmark s recipe).bookmarks = s.bookmarks ++ [recipe] ∧
      (Model.addBookmark s recipe).bookmarks.length = s.bookmarks.length + 1 ∧
      (Model.addBookmark s recipe).recipe = s.recipe ∧
      Model.bookmarkedOf (Model.addBookmark s recipe) s.recipe = some true ∧
      (∀ ref : Nat, ref ≠ s.recipe →
        (Model.addBookmark s recipe).objects[ref]? = s.objects[ref]?) ∧
      (∀ ref : Nat,
        ((Model.addBookmark s recipe).objects[ref]?).map (fun o : RecipeObject => o.fields)
          = (s.objects[ref]?).map (fun o : RecipeObject => o.fields)) ∧
      (Model.addBookmark s recipe).storage
        = some ((Model.addBookmark s recipe).bookmarks.filterMap
            (fun ref => (Model.addBookmark s recipe).objects[ref]?)) := by
  have hb : (Model.addBookmark s recipe).bookmarks = s.bookmarks ++ [recipe] := by
    simp [Model.addBookmark, Model.persistBookmarks, Model.setBookmarked_bookmarks]
  refine ⟨hb, by rw [hb]; simp, ?_, ?_, ?_, ?_, ?_⟩
  · simp [Model.addBookmark, Model.persistBookmarks, Model.setBookmarked_recipe]
  · have := Model.bookmarkedOf_setBookmarked { s with bookmarks := s.bookmarks ++ [recipe] }
      s.recipe true hrec
    simpa [Model.addBookmark, Model.persistBookmarks, Model.bookmarkedOf] using this
  · intro ref hne
    have := Model.setBookmarked_objects_ne { s with bookmarks := s.bookmarks ++ [recipe] }
      s.recipe ref true hne
    simpa [Model.addBookmark, Model.persistBookmarks] using this
  · intro ref
    have := Model.setBookmarked_fields { s with bookmarks := s.bookmarks ++ [recipe] }
      s.recipe ref true
    simpa [Model.addBookmark, Model.persistBookmarks] using this
  · simp [Model.addBookmark, Model.persistBookmarks]

/-- C16 at a concrete input: the loaded recipe Soup is bookmarked. -/
theorem addBookmark_appends_witness :
    soupLoaded.recipe < soupLoaded.objects.length ∧
    (Model.addBookmark soupLoaded soupLoaded.recipe).bookmarks
      = soupLoaded.bookmarks ++ [soupLoaded.recipe] ∧
    Model.bookmarkedOf (Model.addBookmark soupLoaded soupLoaded.recipe) soupLoaded.recipe
      = some true ∧
    (Model.addBookmark soupLoaded soupLoaded.recipe).storage
      = some [{ fields := some soupRecipe, bookmarked := some true }] :=
  ⟨by decide,
   (addBookmark_appends soupLoaded soupLoaded.recipe (by decide)).1,
   (addBookmark_appends soupLoaded soupLoaded.recipe (by decide)).2.2.2.1,
   by decide⟩

/-- C17: for every id that some bookmark carries, `deleteBookmark(id)` completes and
removes from `state.bookmarks` the first bookmark with that id and no other, the rest
keeping their order. Hence, when no bookmark has the id of the recipe `r`, `addBookmark(r)`
followed by `deleteBookmark` of that id gives back the bookmarks array as it was. -/
theorem deleteBookmark_removes_first (s : State) :
    (∀ id : Option String, (∃ ref ∈ s.bookmarks, Model.idOf s ref = id) →
      ∃ before ref after, s.bookmarks = before ++ ref :: after ∧ Model.idOf s ref = id ∧
        (∀ b ∈ before, Model.idOf s b ≠ id) ∧
        (Model.deleteBookmark s id).1.bookmarks = before ++ after ∧
        (Model.deleteBookmark s id).2 = .normal ()) ∧
    (∀ (r : Nat) (id : String), Model.idOf s r = some id →
      (∀ b ∈ s.bookmarks, Model.idOf s b ≠ some id) →
      (Model.deleteBookmark (Model.addBookmark s r) (some id)).1.bookmarks = s.bookmarks ∧
      (Model.deleteBookmark (Model.addBookmark s r) (some id)).2 = .normal ()) := by
  constructor
  · intro id hex
    have hex2 : ∃ ref ∈ s.bookmarks, (fun recipe => id == Model.idOf s recipe) ref = true := by
      obtain ⟨ref, hmem, hid⟩ := hex
      exact ⟨ref, hmem, by simp [hid]⟩
    obtain ⟨before, ref, after, hsplit, href, hbefore⟩ := Model.exists_first _ _ hex2
    have hid : Model.idOf s ref = id := by
      simp only [beq_iff_eq] at href
      exact href.symm
    have hb : ∀ b ∈ before, Model.idOf s b ≠ id := by
      intro b hbm h
      have := hbefore b hbm
      simp [h] at this
    refine ⟨before, ref, after, hsplit, hid, hb, ?_, ?_⟩
    · rw [Model.deleteBookmark_of_split s id before after ref hsplit hid hb]
      rfl
    · rw [Model.deleteBookmark_of_split s id before after ref hsplit hid hb]
  · intro r id hid hnone
    have hids : ∀ ref, Model.idOf (Model.addBookmark s r) ref = Model.idOf s ref := by
      intro ref
      have := Model.idOf_setBookmarked { s with bookmarks := s.bookmarks ++ [r] } s.recipe
        ref true
      simpa [Model.addBookmark, Model.persistBookmarks, Model.idOf] using this
    have hbm : (Model.addBookmark s r).bookmarks = s.bookmarks ++ r :: [] := by
      simp [Model.addBookmark, Model.persistBookmarks, Model.setBookmarked_bookmarks]
    have hdel := Model.deleteBookmark_of_split (Model.addBookmark s r) (some id) s.bookmarks []
      r hbm (by rw [hids]; exact hid) (by intro b hb; rw [hids]; exact hnone b hb)
    rw [hdel]
    simp [Model.persistBookmarks]

/-- C17 at a concrete input: the bookmark of Soup is deleted from the state where it is the
only one, and a bookmark of the loaded Soup is added to the state without bookmarks and
deleted again. -/
theorem deleteBookmark_removes_first_witness :
    (∃ ref ∈ soupBookmarked.bookmarks, Model.idOf soupBookmarked ref = some "soup") ∧
    (∃ before ref after, soupBookmarked.bookmarks = before ++ ref :: after ∧
        Model.idOf soupBookmarked ref = some "soup" ∧
        (∀ b ∈ before, Model.idOf soupBookmarked b ≠ some "soup") ∧
        (Model.deleteBookmark soupBookmarked (some "soup")).1.bookmarks = before ++ after ∧
        (Model.deleteBookmark soupBookmarked (some "soup")).2 = .normal ()) ∧
    Model.idOf soupLoaded 1 = some "soup" ∧
    (∀ b ∈ soupLoaded.bookmarks, Model.idOf soupLoaded b ≠ some "soup") ∧
    (Model.deleteBookmark (Model.addBookmark soupLoaded 1) (some "soup")).1.bookmarks
      = soupLoaded.bookmarks :=
  ⟨by decide,
   (deleteBookmark_removes_first soupBookmarked).1 (some "soup") (by decide),
   by decide, by decide,
   ((deleteBookmark_removes_first soupLoaded).2 1 "soup" (by decide) (by decide)).1⟩

/-! ## The claims about `uploadRecipe` -/

namespace Model

theorem parseIngredient_of_three (toNumber : String → JsNumber) (value : String)
    (h : (jsSplitComma value).length = 3) :
    ∃ quantity unit description,
      (jsSplitComma value).map jsTrim = [quantity, unit, description] ∧
      parseIngredient toNumber value
        = .normal { quantity := some (toNumber quantity), unit := unit,
                    description := description } := by
  have hlen : ((jsSplitComma value).map jsTrim).length = 3 := by simpa using h
  unfold parseIngredient
  match hparts : (jsSplitComma value).map jsTrim, hlen with
  | [quantity, unit, description], _ =>
    exact ⟨quantity, unit, description, rfl, by simp [JsValue.toBoolean]⟩

theorem parseIngredient_of_not_three (toNumber : String → JsNumber) (value : String)
    (h : (jsSplitComma value).length ≠ 3) :
    parseIngredient toNumber value = .throw wrongIngredientFormat := by
  have hlen : ((jsSplitComma value).map jsTrim).length ≠ 3 := by simpa using h
  unfold parseIngredient
  generalize (jsSplitComma value).map jsTrim = parts at hlen
  match parts, hlen with
  | [], _ => rfl
  | [_], _ => rfl
  | [_, _], _ => rfl
  | [_, _, _], h3 => exact absurd rfl h3
  | _ :: _ :: _ :: _ :: _, _ => rfl

/-- The entries that are all made of three parts give as many ingredients, each made of
the trimmed parts of its entry. -/
theorem mapIngredients_of_three (toNumber : String → JsNumber) :
    ∀ entries : List (String × String),
      (∀ entry ∈ entries, (jsSplitComma entry.2).length = 3) →
      ∃ ingredients, mapIngredients toNumber entries = .normal ingredients ∧
        List.Forall₂ (fun (entry : String × String) (ing : UploadIngredient) =>
          ∃ quantity, (jsSplitComma entry.2).map jsTrim
              = [quantity, ing.unit, ing.description] ∧
            ing.quantity = some (toNumber quantity)) entries ingredients
  | [], _ => ⟨[], rfl, List.Forall₂.nil⟩
  | entry :: rest, h => by
    obtain ⟨quantity, unit, description, hparts, hparse⟩ :=
      parseIngredient_of_three toNumber entry.2 (h entry (List.mem_cons_self _ _))
    obtain ⟨others, hothers, hall⟩ := mapIngredients_of_three toNumber rest
      (fun e he => h e (List.mem_cons_of_mem _ he))
    refine ⟨{ quantity := some (toNumber quantity), unit := unit,
              description := description } :: others,
      by simp [mapIngredients, hparse, hothers], ?_⟩
    exact List.Forall₂.cons ⟨quantity, hparts, rfl⟩ hall

/-- An entry that is not made of three parts makes the call throw, and nothing else does. -/
theorem mapIngredients_throw (toNumber : String → JsNumber) :
    ∀ entries : List (String × String),
      (∃ entry ∈ entries, (jsSplitComma entry.2).length ≠ 3) →
      mapIngredients toNumber entries = .throw wrongIngredientFormat
  | [], h => by
    obtain ⟨e, he, _⟩ := h
    simp at he
  | entry :: rest, h => by
    by_cases h3 : (jsSplitComma entry.2).length = 3
    · obtain ⟨quantity, unit, description, _, hparse⟩ :=
        parseIngredient_of_three toNumber entry.2 h3
      have hrest : ∃ e ∈ rest, (jsSplitComma e.2).length ≠ 3 := by
        obtain ⟨e, he, hne⟩ := h
        rcases List.mem_cons.1 he with rfl | he
        · exact absurd h3 hne
        · exact ⟨e, he, hne⟩
      simp [mapIngredients, hparse, mapIngredients_throw toNumber rest hrest]
    · simp [mapIngredients, parseIngredient_of_not_three toNumber entry.2 h3]

end Model

/-- C18: `uploadRecipe` fails with the error `Wrong ingredient format! Please use the
correct format.` if and only if some entry of the form whose key starts with `ingredient-`
and whose value is not empty does not split on commas into exactly three parts; and when it
fails this way the state is what it was, no call of `AJAX` included. -/
theorem uploadRecipe_wrong_format_iff (toNumber : String → JsNumber) (s : State)
    (newRecipe : List (String × String)) (response : Option ApiRecipe) :
    ((Model.uploadRecipe toNumber s newRecipe response).2 = .throw wrongIngredientFormat ↔
      ∃ entry ∈ newRecipe, startsWithIngredient entry.1 = true ∧ entry.2 ≠ "" ∧
        (jsSplitComma entry.2).length ≠ 3) ∧
    ((Model.uploadRecipe toNumber s newRecipe response).2 = .throw wrongIngredientFormat →
      (Model.uploadRecipe toNumber s newRecipe response).1 = s) := by
  by_cases hall : ∀ entry ∈ newRecipe.filter
      (fun entry => startsWithIngredient entry.1 && entry.2 != ""),
      (jsSplitComma entry.2).length = 3
  · obtain ⟨ingredients, hmap, _⟩ := Model.mapIngredients_of_three toNumber _ hall
    have hnot : (Model.uploadRecipe toNumber s newRecipe response).2
        ≠ .throw wrongIngredientFormat := by
      unfold Model.uploadRecipe
      simp only [hmap]
      cases response with
      | none =>
        simp only [ne_eq, Completion.throw.injEq]
        decide
      | some data => simp
    refine ⟨⟨fun h => absurd h hnot, ?_⟩, fun h => absurd h hnot⟩
    rintro ⟨entry, hmem, hkey, hval, hlen⟩
    exact absurd (hall entry (List.mem_filter.2 ⟨hmem, by simp [hkey, hval]⟩)) hlen
  · have hex : ∃ entry ∈ newRecipe.filter
        (fun entry => startsWithIngredient entry.1 && entry.2 != ""),
        (jsSplitComma entry.2).length ≠ 3 := by
      by_contra hno
      exact hall (fun entry he => by
        by_contra hne
        exact hno ⟨entry, he, hne⟩)
    have hmap := Model.mapIngredients_throw toNumber _ hex
    have hres : Model.uploadRecipe toNumber s newRecipe response
        = (s, .throw wrongIngredientFormat) := by
      unfold Model.uploadRecipe
      simp only [hmap]
    rw [hres]
    refine ⟨⟨fun _ => ?_, fun _ => rfl⟩, fun _ => rfl⟩
    obtain ⟨entry, hmem, hlen⟩ := hex
    obtain ⟨hin, hcond⟩ := List.mem_filter.1 hmem
    simp only [Bool.and_eq_true, bne_iff_ne, ne_eq] at hcond
    exact ⟨entry, hin, hcond.1, hcond.2, hlen⟩

/-- C18 at concrete inputs: a form whose second ingredient has two parts is refused and the
state stays what it was; a form with well-formed ingredients is not refused. -/
theorem uploadRecipe_wrong_format_iff_witness :
    (∃ entry ∈ badForm, startsWithIngredient entry.1 = true ∧ entry.2 ≠ "" ∧
        (jsSplitComma entry.2).length ≠ 3) ∧
    (Model.uploadRecipe toNumber soupLoaded badForm (some apiStew)).2
      = .throw wrongIngredientFormat ∧
    (Model.uploadRecipe toNumber soupLoaded badForm (some apiStew)).1 = soupLoaded ∧
    (Model.uploadRecipe toNumber soupLoaded soupForm (some apiStew)).2 = .normal () :=
  ⟨by decide,
   (uploadRecipe_wrong_format_iff toNumber soupLoaded badForm (some apiStew)).1.2 (by decide),
   (uploadRecipe_wrong_format_iff toNumber soupLoaded badForm (some apiStew)).2
    ((uploadRecipe_wrong_format_iff toNumber soupLoaded badForm (some apiStew)).1.2
      (by decide)),
   by decide⟩

/-- C19: when every entry of the form whose key starts with `ingredient-` and whose value
is not empty splits on commas into three parts, `uploadRecipe` sends one request, and the
ingredients of the recipe it sends are those entries, one ingredient for each and in the
order of the form: the unit and the description are the second and the third part of the
value, trimmed, and the quantity is the number of the first part, trimmed. -/
theorem uploadRecipe_sends_ingredients (toNumber : String → JsNumber) (s : State)
    (newRecipe : List (String × String)) (response : Option ApiRecipe)
    (hgood : ∀ entry ∈ newRecipe, startsWithIngredient entry.1 = true → entry.2 ≠ "" →
      (jsSplitComma entry.2).length = 3) :
    ∃ recipe url,
      (Model.uploadRecipe toNumber s newRecipe response).1.requests
        = s.requests ++ [{ url := url, uploadData := some recipe }] ∧
      List.Forall₂ (fun (entry : String × String) (ing : UploadIngredient) =>
          ∃ quantity, (jsSplitComma entry.2).map jsTrim
              = [quantity, ing.unit, ing.description] ∧
            ing.quantity = some (toNumber quantity))
        (newRecipe.filter (fun entry => startsWithIngredient entry.1 && entry.2 != ""))
        recipe.ingredients := by
  have hall : ∀ entry ∈ newRecipe.filter
      (fun entry => startsWithIngredient entry.1 && entry.2 != ""),
      (jsSplitComma entry.2).length = 3 := by
    intro entry hmem
    obtain ⟨hin, hcond⟩ := List.mem_filter.1 hmem
    simp only [Bool.and_eq_true, bne_iff_ne, ne_eq] at hcond
    exact hgood entry hin hcond.1 hcond.2
  obtain ⟨ingredients, hmap, hparts⟩ := Model.mapIngredients_of_three toNumber _ hall
  refine ⟨{ title := Model.formField newRecipe "title"
            publisher := Model.formField newRecipe "publisher"
            source_url := Model.formField newRecipe "sourceUrl"
            image_url := Model.formField newRecipe "image"
            cooking_time := Model.numberOfField toNumber (Model.formField newRecipe "cookingTime")
            servings := Model.numberOfField toNumber (Model.formField newRecipe "servings")
            ingredients := ingredients },
    API_URL ++ "?search=" ++ templateText (Model.formField newRecipe "title") ++ "&key="
      ++ API_KEY, ?_, hparts⟩
  unfold Model.uploadRecipe
  simp only [hmap]
  cases response with
  | none => rfl
  | some data => simp [Model.persistBookmarks, Model.addBookmark, Model.setBookmarked]

/-- C19 at a concrete form: the value `1, gram , tomato sauce` is sent with the unit `gram`
and the description `tomato sauce`, the entry with an empty value is left out, and the
order of the form is kept. -/
theorem uploadRecipe_sends_ingredients_witness :
    (∀ entry ∈ soupForm, startsWithIngredient entry.1 = true → entry.2 ≠ "" →
      (jsSplitComma entry.2).length = 3) ∧
    (∃ recipe url,
      (Model.uploadRecipe toNumber soupLoaded soupForm (some apiStew)).1.requests
        = soupLoaded.requests ++ [{ url := url, uploadData := some recipe }] ∧
      List.Forall₂ (fun (entry : String × String) (ing : UploadIngredient) =>
          ∃ quantity, (jsSplitComma entry.2).map jsTrim
              = [quantity, ing.unit, ing.description] ∧
            ing.quantity = some (toNumber quantity))
        (soupForm.filter (fun entry => startsWithIngredient entry.1 && entry.2 != ""))
        recipe.ingredients) ∧
    ((Model.uploadRecipe toNumber soupLoaded soupForm (some apiStew)).1.requests.map
        (fun request => request.uploadData.map
          (fun recipe => recipe.ingredients.map (fun ing => (ing.unit, ing.description)))))
      = [none, some [("gram", "tomato sauce"), ("gram", "salt")]] :=
  ⟨by decide,
   uploadRecipe_sends_ingredients toNumber soupLoaded soupForm (some apiStew) (by decide),
   by decide⟩

/-- C20 at a failing input: for the form whose third ingredient is `,gram,salt`, the
quantity of that ingredient in the recipe sent is `Number('')`, a number, whatever the
builtin `Number` is; it is not `null`. -/
theorem uploadRecipe_empty_quantity_is_number (toNumber : String → JsNumber)
    (response : Option ApiRecipe) :
    (Model.uploadRecipe toNumber Model.initial soupForm response).1.requests.map
        (fun request => request.uploadData.map (fun recipe => recipe.ingredients))
      = [some [{ quantity := some (toNumber "1"), unit := "gram",
                 description := "tomato sauce" },
               { quantity := some (toNumber ""), unit := "gram", description := "salt" }]] := by
  cases response <;> rfl

/-! ## The claims about `PaginationView` -/

namespace PaginationView

/-- With a page size that is not `0`, `numPages` is the ceiling of the quotient. -/
theorem numPages_eq_ceil (data : Search) (hper : 0 < data.resultsPerPage) :
    numPages data
      = .finite ⌈(data.results.length : ℚ) / (data.resultsPerPage : ℚ)⌉₊ := by
  have hq : (0 : ℚ) < (data.resultsPerPage : ℚ) := by exact_mod_cast hper
  unfold numPages
  rw [if_neg (Nat.pos_iff_ne_zero.1 hper)]
  congr 1
  apply eq_of_forall_ge_iff
  intro m
  rw [Nat.ceil_le, div_le_iff₀ hq, ← Nat.lt_succ_iff, Nat.div_lt_iff_lt_mul hper]
  have hcast : ((data.results.length : ℚ) ≤ (m : ℚ) * (data.resultsPerPage : ℚ))
      ↔ data.results.length ≤ m * data.resultsPerPage := by exact_mod_cast Iff.rfl
  rw [hcast, Nat.succ_mul]
  omega

/-- More than one page means more results than fit on a page. -/
theorem length_of_greaterThan_one (data : Search)
    (hmany : (numPages data).greaterThan 1 = true) :
    data.resultsPerPage < data.results.length := by
  unfold numPages at hmany
  by_cases hper : data.resultsPerPage = 0
  · by_cases hlen : data.results.length = 0
    · simp [hper, hlen, PageCount.greaterThan] at hmany
    · omega
  · simp only [if_neg hper, PageCount.greaterThan, decide_eq_true_eq] at hmany
    have h2 : 2 ≤ (data.results.length + data.resultsPerPage - 1) / data.resultsPerPage := by
      omega
    have h3 := (Nat.le_div_iff_mul_le (Nat.pos_of_ne_zero hper)).1 h2
    omega

/-- Results that fit on one page do not make more than one page. -/
theorem not_greaterThan_one_of_length (data : Search)
    (hfit : data.results.length ≤ data.resultsPerPage) :
    (numPages data).greaterThan 1 = false := by
  by_contra h
  have := length_of_greaterThan_one data (by simpa using h)
  omega

/-- Whatever the page, results that fit on one page give the previous button alone, the
first page included. -/
theorem generateMarkup_of_single_page (icons : String) (data : Search)
    (hfit : data.results.length ≤ data.resultsPerPage) :
    _generateMarkup icons data = prevButton icons data.page := by
  simp [_generateMarkup, not_greaterThan_one_of_length data hfit, hfit]

end PaginationView

/-- C21, the code at a failing input: five results with ten to a page, on page 1. The first
condition of `_generateMarkup` asks for more than one page, so the second one is reached,
which returns the previous button: the markup is a button of class `pagination__btn--prev`
that leads to page 0. -/
theorem generateMarkup_first_page_has_prev :
    fiveResults.page = 1 ∧ fiveResults.results.length = 5 ∧
    fiveResults.resultsPerPage = 10 ∧
    PaginationView._generateMarkup host.icons fiveResults
      = PaginationView.prevButton host.icons 1 ∧
    buttonAttributes (host.parseHTML (PaginationView._generateMarkup host.icons fiveResults))
      = [[("data-goto", "0"), ("button", ""),
          ("class", "btn--inline pagination__btn--prev")]] := by
  set_option maxRecDepth 100000 in decide

/-- C22: when there is more than one page, `_generateMarkup` gives on page 1 the next
button for page 1 alone, which leads to page 2; on the last page the previous button alone,
which leads to the page before; and on a page strictly between the previous button
followed by the next button, which lead to the page before and to the page after. -/
theorem generateMarkup_buttons (icons : String) (data : Search)
    (hmany : (PaginationView.numPages data).greaterThan 1 = true) :
    (data.page = 1 →
      PaginationView._generateMarkup icons data = PaginationView.nextButton icons 1) ∧
    (PageCount.strictEquals data.page (PaginationView.numPages data) = true →
      PaginationView._generateMarkup icons data
        = PaginationView.prevButton icons data.page) ∧
    (1 < data.page → (PaginationView.numPages data).greaterThan data.page = true →
      PaginationView._generateMarkup icons data
        = PaginationView.prevButton icons data.page
          ++ PaginationView.nextButton icons data.page) := by
  have hlen := PaginationView.length_of_greaterThan_one data hmany
  have hnot : ¬ data.results.length ≤ data.resultsPerPage := by omega
  refine ⟨?_, ?_, ?_⟩
  · intro hpage
    simp [PaginationView._generateMarkup, hpage, hmany]
  · intro hlast
    have hne : data.page ≠ 1 := by
      intro h1
      cases hn : PaginationView.numPages data with
      | finite n =>
        rw [hn] at hmany hlast
        simp only [PageCount.greaterThan, PageCount.strictEquals, decide_eq_true_eq]
          at hmany hlast
        omega
      | infinity => simp [hn, PageCount.strictEquals] at hlast
      | nan => simp [hn, PageCount.strictEquals] at hlast
    simp [PaginationView._generateMarkup, hne, hlast]
  · intro hpage hbelow
    have hne : data.page ≠ 1 := by omega
    have hlast : PageCount.strictEquals data.page (PaginationView.numPages data) = false := by
      cases hn : PaginationView.numPages data with
      | finite n =>
        rw [hn] at hbelow
        simp only [PageCount.greaterThan, decide_eq_true_eq] at hbelow
        simp only [PageCount.strictEquals, decide_eq_false_iff_not]
        omega
      | infinity => rfl
      | nan => rfl
    simp [PaginationView._generateMarkup, hne, hlast, hnot]

/-- C22 at concrete inputs: 25 results with ten to a page make three pages; page 1 has the
next button to page 2, page 3 the previous button to page 2, and page 2 the previous button
to page 1 followed by the next button to page 3. -/
theorem generateMarkup_buttons_witness :
    (PaginationView.numPages (pageOf25 2)).greaterThan 1 = true ∧
    PaginationView.numPages (pageOf25 2) = .finite 3 ∧
    PaginationView._generateMarkup host.icons (pageOf25 1)
      = PaginationView.nextButton host.icons 1 ∧
    PaginationView._generateMarkup host.icons (pageOf25 3)
      = PaginationView.prevButton host.icons 3 ∧
    PaginationView._generateMarkup host.icons (pageOf25 2)
      = PaginationView.prevButton host.icons 2 ++ PaginationView.nextButton host.icons 2 ∧
    buttonAttributes (host.parseHTML (PaginationView._generateMarkup host.icons (pageOf25 1)))
      = [[("data-goto", "2"), ("class", "btn--inline pagination__btn--next")]] ∧
    buttonAttributes (host.parseHTML (PaginationView._generateMarkup host.icons (pageOf25 3)))
      = [[("data-goto", "2"), ("button", ""),
          ("class", "btn--inline pagination__btn--prev")]] ∧
    buttonAttributes (host.parseHTML (PaginationView._generateMarkup host.icons (pageOf25 2)))
      = [[("data-goto", "1"), ("button", ""),
          ("class", "btn--inline pagination__btn--prev")],
         [("data-goto", "3"), ("class", "btn--inline pagination__btn--next")]] :=
  ⟨by decide, by decide,
   (generateMarkup_buttons host.icons (pageOf25 1) (by decide)).1 (by decide),
   (generateMarkup_buttons host.icons (pageOf25 3) (by decide)).2.1 (by decide),
   (generateMarkup_buttons host.icons (pageOf25 2) (by decide)).2.2 (by decide) (by decide),
   by set_option maxRecDepth 100000 in decide,
   by set_option maxRecDepth 100000 in decide,
   by set_option maxRecDepth 100000 in decide⟩

/-! ## The claim about the text patch of `update` -/

/-- C23, the code at a failing input: the view shows a box whose `span` holds the title
Soup and is updated with the title Stew. The two markups have the same elements and differ
in the text of the `span` only, whose single child is that text. The box differs from the
new box as well, and its first child is the `span`, an element, whose `nodeValue` is
`null`: `update` throws in the round of the box, before the round of the `span`, and the
mount point still shows Soup. -/
theorem update_text_below_element_throws :
    (emptyView boxMarkup)._generateMarkup (recipe "Soup" "Ann")
      = some "<div class=\"box\"><span>Soup</span></div>" ∧
    (emptyView boxMarkup)._generateMarkup (recipe "Stew" "Ann")
      = some "<div class=\"box\"><span>Stew</span></div>" ∧
    Node.stripList
        (View.render host (emptyView boxMarkup) (recipe "Soup" "Ann") true).1._parentElement
      = [.element "div" [("class", "box")] [.element "span" [] [.text "Soup"]]] ∧
    host.parseHTML "<div class=\"box\"><span>Stew</span></div>"
      = [.element "div" [("class", "box")] [.element "span" [] [.text "Stew"]]] ∧
    ((View.render host (emptyView boxMarkup) (recipe "Soup" "Ann") true).1.update host
        (recipe "Stew" "Ann")).2
      = .throw "TypeError: Cannot read properties of null (reading 'trim')" ∧
    Node.stripList
        ((View.render host (emptyView boxMarkup) (recipe "Soup" "Ann") true).1.update host
          (recipe "Stew" "Ann")).1._parentElement
      = [.element "div" [("class", "box")] [.element "span" [] [.text "Soup"]]] := by
  set_option maxRecDepth 100000 in decide

/-! ## The claim about `AJAX` -/

/-- No call of `AJAX` throws: the handler `catch (err) {}` ends every failure of the `try`
block, and the call then returns `undefined`. -/
theorem AJAX_of_tryBlock (settled : Settled) :
    (∀ error, AJAX.tryBlock settled = .throw error → AJAX settled = .normal none) ∧
    (∀ data, AJAX.tryBlock settled = .normal data → AJAX settled = .normal (some data)) ∧
    (∀ error, AJAX settled ≠ .throw error) := by
  unfold AJAX
  cases AJAX.tryBlock settled with
  | normal data => simp
  | throw e => simp

/-- A response whose flag `ok` is set and whose body parses is returned as parsed. -/
theorem AJAX_of_ok (res : Response) (data : JsValue) (hok : res.ok = true)
    (hjson : res.json = .normal data) :
    AJAX (.response res) = .normal (some data) := by
  simp [AJAX, AJAX.tryBlock, hok, hjson]

/-- C24, the code at failing inputs: for the answer of the API with status 400 and the
message `Invalid _id: 123` the `try` block throws the error `Invalid _id: 123 400`, and for
a timeout it throws the error of the timeout; in both cases `AJAX` itself completes, with
the value `undefined`, and `loadRecipe` then fails on that value with a TypeError. -/
theorem AJAX_returns_undefined_on_failure :
    AJAX.tryBlock (.response notFound) = .throw "Invalid _id: 123 400" ∧
    AJAX (.response notFound) = .normal none ∧
    AJAX.tryBlock .timedOut = .throw "Request took too long! Timeout after 10 second" ∧
    AJAX .timedOut = .normal none ∧
    (Model.loadRecipe Model.initial "123" none).2
      = .throw "TypeError: Cannot read properties of undefined (reading 'data')" :=
  ⟨rfl, rfl, rfl, rfl, rfl⟩

end Forkify
